import Mathlib

/-
A shallow embedding of the Blender add-on `scale_animation_fix.py`
(operator `FixAnimationForScaledModelsOperator.execute` plus the
`scale_factor` scene-property registration).

Numeric values (keyframe coordinates, bone locations, the scale factor)
are modelled as exact rationals.  The host's F-curve interpolation between
keyframes is kept abstract as a parameter `interp`; at an exact keyframe
frame every Blender interpolation mode passes through the keyframe, which
is the only fact the operator's behaviour depends on.
-/

namespace ScaleFix

/-- A keyframe point of an F-curve: `co[0]` is the frame, `co[1]` the value. -/
structure Keyframe where
  frame : ℚ
  value : ℚ
deriving DecidableEq

/-- An F-curve of an action: a data path, an array index and keyframe points. -/
structure FCurve where
  data_path : String
  array_index : Nat
  keyframe_points : List Keyframe
deriving DecidableEq

/-- An action: its F-curves and its frame range `(start, end)`. -/
structure Action where
  fcurves : List FCurve
  frame_range : ℚ × ℚ
deriving DecidableEq

/-- A 3-component location vector. -/
structure Vec3 where
  x : ℚ
  y : ℚ
  z : ℚ
deriving DecidableEq

/-- A pose bone: its name and its current pose location. -/
structure PoseBone where
  name : String
  location : Vec3
deriving DecidableEq

/-- Animation data of an object: holds an optional action. -/
structure AnimData where
  action : Option Action
deriving DecidableEq

/-- A scene object: name, object type, pose bones and animation data. -/
structure Object where
  name : String
  objType : String
  pose_bones : List PoseBone
  animation_data : Option AnimData
deriving DecidableEq

/-- The scene: its objects, the value of the registered `scale_factor`
property, the current timeline frame and the interaction mode. -/
structure Scene where
  objects : List Object
  scale_factor : ℚ
  frame_current : ℤ
  mode : String
deriving DecidableEq

/-- Python `int()` truncation toward zero, on an exact rational. -/
def pyInt (q : ℚ) : ℤ := Int.tdiv q.num q.den

/-- The location data path of a pose bone, as the operator builds it. -/
def locPath (bone : String) : String := "pose.bones[\"" ++ bone ++ "\"].location"

/-- The match predicate of `fcurves.find(data_path=..., index=...)`. -/
def fcMatch (fc : FCurve) (path : String) (idx : Nat) : Bool :=
  fc.data_path == path && fc.array_index == idx

/-- `action.fcurves.find(data_path=..., index=...)`: first matching F-curve. -/
def findFC (fcs : List FCurve) (path : String) (idx : Nat) : Option FCurve :=
  fcs.find? (fun fc => fcMatch fc path idx)

/-- Host interpolation between keyframes: a function of the keyframe list,
the evaluation time and the channel's current value.  The operator never
depends on it, so it stays an abstract parameter. -/
abbrev Interp := List Keyframe → ℚ → ℚ → ℚ

/-- F-curve evaluation at a time: at an exact keyframe frame the curve
passes through the keyframe; elsewhere the host interpolation decides. -/
def FCurve.evalAt (interp : Interp) (fc : FCurve) (t : ℚ) (cur : ℚ) : ℚ :=
  match fc.keyframe_points.find? (fun k => decide (k.frame = t)) with
  | some k => k.value
  | none => interp fc.keyframe_points t cur

/-- `pose.bones[name]` lookup: the first bone with the given name. -/
def findBone (bones : List PoseBone) (n : String) : Option PoseBone :=
  bones.find? (fun b => b.name == n)

/-- `name in pose.bones`. -/
def hasBone (bones : List PoseBone) (n : String) : Bool :=
  (findBone bones n).isSome

/-- Mutate the bone object returned by `pose.bones[name]`: update the first
bone with that name. -/
def updateBoneFirst (bones : List PoseBone) (n : String) (f : PoseBone → PoseBone) :
    List PoseBone :=
  match bones with
  | [] => []
  | b :: rest => if b.name == n then f b :: rest else b :: updateBoneFirst rest n f

/-- One animated location channel of a bone, re-evaluated at a frame. -/
def evalBoneChannel (interp : Interp) (a : Action) (bname : String) (idx : Nat)
    (t : ℚ) (cur : ℚ) : ℚ :=
  match findFC a.fcurves (locPath bname) idx with
  | some fc => fc.evalAt interp t cur
  | none => cur

/-- Effect of a frame change on one pose bone: each location channel with an
F-curve is re-evaluated, channels without one keep their value. -/
def frameSetBone (interp : Interp) (a : Action) (t : ℤ) (b : PoseBone) : PoseBone :=
  { b with location :=
      { x := evalBoneChannel interp a b.name 0 (t : ℚ) b.location.x,
        y := evalBoneChannel interp a b.name 1 (t : ℚ) b.location.y,
        z := evalBoneChannel interp a b.name 2 (t : ℚ) b.location.z } }

/-- The mutable state the operator works on after the armature and action
are in hand: the action, the armature's pose bones, the current frame, and
a trace of every `frame_set` call (newest last). -/
structure WorkState where
  act : Action
  bones : List PoseBone
  frame : ℤ
  trace : List ℤ
deriving DecidableEq

/-- `bpy.context.scene.frame_set(t)`: move the timeline and re-evaluate the
pose from the action's F-curves; the trace records the call. -/
def frameSet (interp : Interp) (t : ℤ) (st : WorkState) : WorkState :=
  { st with
    bones := st.bones.map (frameSetBone interp st.act t),
    frame := t,
    trace := st.trace ++ [t] }

/-- Insertion keeping the keyframe list sorted by frame. -/
def insertSorted (kfs : List Keyframe) (k : Keyframe) : List Keyframe :=
  match kfs with
  | [] => [k]
  | a :: rest => if k.frame < a.frame then k :: a :: rest else a :: insertSorted rest k

/-- Keyframe insertion at frame `t` with value `v`: replace the value when a
keyframe at `t` exists, insert a new point otherwise. -/
def insertKey (kfs : List Keyframe) (t v : ℚ) : List Keyframe :=
  if kfs.any (fun k => decide (k.frame = t)) then
    kfs.map (fun k => if k.frame = t then { k with value := v } else k)
  else insertSorted kfs { frame := t, value := v }

/-- Keyframe insertion on one F-curve. -/
def insertKeyFCurve (fc : FCurve) (t v : ℚ) : FCurve :=
  { fc with keyframe_points := insertKey fc.keyframe_points t v }

/-- `bone.keyframe_insert(data_path="location", index=idx, frame=t)` on the
action's F-curve list: update the first matching F-curve, or create it when
absent. -/
def keyframeInsertList (fcs : List FCurve) (path : String) (idx : Nat) (t v : ℚ) :
    List FCurve :=
  match fcs with
  | [] => [{ data_path := path, array_index := idx
             keyframe_points := [{ frame := t, value := v }] }]
  | fc :: rest =>
    if fcMatch fc path idx then insertKeyFCurve fc t v :: rest
    else fc :: keyframeInsertList rest path idx t v

/-- Mutate the F-curve object returned by `fcurves.find`: update the first
matching F-curve in place. -/
def mapFirstFCurve (fcs : List FCurve) (path : String) (idx : Nat) (g : FCurve → FCurve) :
    List FCurve :=
  match fcs with
  | [] => []
  | fc :: rest =>
    if fcMatch fc path idx then g fc :: rest
    else fc :: mapFirstFCurve rest path idx g

/-- Lines 56-69 of the source: the negated hips Y value at the first frame —
read from the hips Y F-curve's keyframe at that frame when the curve exists,
from the evaluated pose when the curve does not exist, and 0 when the bone
is absent or the curve has no keyframe at the first frame. -/
def computeHipsYOffset (a : Action) (bones : List PoseBone) (first_frame : ℤ) : ℚ :=
  match findBone bones "hips" with
  | none => 0
  | some hips_bone =>
    match findFC a.fcurves (locPath "hips") 1 with
    | some fc =>
      match fc.keyframe_points.find? (fun k => decide (k.frame = (first_frame : ℚ))) with
      | some k => -k.value
      | none => 0
    | none => -hips_bone.location.y

/-- Lines 79-85, one loop iteration: scrub to the frame and, when the Root Y
F-curve has a keyframe there, shift the Root bone's Y location and re-key it. -/
def rootStep (interp : Interp) (dv : ℚ) (st : WorkState) (frame : ℤ) : WorkState :=
  let st1 := frameSet interp frame st
  match findFC st1.act.fcurves (locPath "Root") 1 with
  | none => st1
  | some fc =>
    if fc.keyframe_points.any (fun k => decide (k.frame = (frame : ℚ))) then
      let bones2 := updateBoneFirst st1.bones "Root"
        (fun b => { b with location := { b.location with y := b.location.y + dv } })
      let v := match findBone bones2 "Root" with
        | some b => b.location.y
        | none => 0
      { st1 with
        bones := bones2,
        act := { st1.act with
                 fcurves := keyframeInsertList st1.act.fcurves (locPath "Root") 1
                   (frame : ℚ) v } }
    else st1

/-- `range(int(frame_range[0]), int(frame_range[1]) + 1)`. -/
def frameList (a b : ℤ) : List ℤ :=
  (List.range (b + 1 - a).toNat).map (fun (i : ℕ) => a + (i : ℤ))

/-- Lines 74-85: the Root pass, guarded on the Root bone existing. -/
def rootPass (interp : Interp) (dv : ℚ) (st : WorkState) : WorkState :=
  if hasBone st.bones "Root" then
    (frameList (pyInt st.act.frame_range.1) (pyInt st.act.frame_range.2)).foldl
      (rootStep interp dv) st
  else st

/-- Lines 93-98, one iteration at index `i` over the live keyframe list:
scale the keyframe's value in place, scrub to its truncated frame, set the
hips bone's Y to the new value and re-key at the keyframe's exact frame. -/
def hipsStep (interp : Interp) (s : ℚ) (st : WorkState) (i : Nat) : WorkState :=
  match findFC st.act.fcurves (locPath "hips") 1 with
  | none => st
  | some fc =>
    match fc.keyframe_points[i]? with
    | none => st
    | some k =>
      let newV := k.value * s
      let act1 := { st.act with
                    fcurves := mapFirstFCurve st.act.fcurves (locPath "hips") 1
                      (fun fc0 => { fc0 with
                                    keyframe_points := fc0.keyframe_points.set i
                                      { k with value := newV } }) }
      let st1 := frameSet interp (pyInt k.frame) { st with act := act1 }
      let bones2 := updateBoneFirst st1.bones "hips"
        (fun b => { b with location := { b.location with y := newV } })
      let v := match findBone bones2 "hips" with
        | some b => b.location.y
        | none => 0
      { st1 with
        bones := bones2,
        act := { st1.act with
                 fcurves := keyframeInsertList st1.act.fcurves (locPath "hips") 1
                   k.frame v } }

/-- Lines 87-98: the hips pass, guarded on the hips bone existing and the
hips Y F-curve being found. -/
def hipsPass (interp : Interp) (s : ℚ) (st : WorkState) : WorkState :=
  if hasBone st.bones "hips" then
    match findFC st.act.fcurves (locPath "hips") 1 with
    | none => st
    | some fc => (List.range fc.keyframe_points.length).foldl (hipsStep interp s) st
  else st

/-- Operator return status. -/
inductive RetStatus where
  | CANCELLED
  | FINISHED
deriving DecidableEq

/-- An operator report.  The INFO report carries the two numbers the
source interpolates into its message text. -/
inductive Report where
  | error (msg : String)
  | info (scale_factor : ℚ) (scaled_hips_offset : ℚ)
deriving DecidableEq

/-- Result of a run: final scene, emitted reports, return status, and the
trace of `frame_set` calls made during the run. -/
structure ExecResult where
  scene : Scene
  reports : List Report
  ret : RetStatus
  trace : List ℤ
deriving DecidableEq

/-- The loop test of lines 32-33: an object of type ARMATURE named `_base_`. -/
def armMatch (o : Object) : Bool :=
  o.objType == "ARMATURE" && o.name == "_base_"

/-- Lines 31-35: the first object of type ARMATURE named `_base_`. -/
def findBaseArmature (s : Scene) : Option Object :=
  s.objects.find? armMatch

/-- Write the mutated armature object back over the first base-armature
slot of the scene's object list. -/
def replaceFirstBase (objs : List Object) (newObj : Object) : List Object :=
  match objs with
  | [] => []
  | o :: rest =>
    if armMatch o then newObj :: rest
    else o :: replaceFirstBase rest newObj

/-- Lines 48-101: the body of `execute` once the armature, its animation
data and its action are in hand. -/
def runMain (interp : Interp) (s : Scene) (armature : Object) (ad : AnimData)
    (action : Action) : ExecResult :=
  let scale_factor := s.scale_factor
  let mode1 := if s.mode == "POSE" then s.mode else "POSE"
  let first_frame := pyInt action.frame_range.1
  let st0 : WorkState :=
    { act := action, bones := armature.pose_bones,
      frame := s.frame_current, trace := [] }
  let st1 := frameSet interp first_frame st0
  let hips_y_offset := computeHipsYOffset action st1.bones first_frame
  let scaled_hips_offset := hips_y_offset * scale_factor
  let st2 := rootPass interp (scale_factor + scaled_hips_offset) st1
  let st3 := hipsPass interp scale_factor st2
  let armature2 :=
    { armature with
      pose_bones := st3.bones,
      animation_data := some { ad with action := some st3.act } }
  { scene :=
      { s with
        objects := replaceFirstBase s.objects armature2,
        frame_current := st3.frame,
        mode := mode1 },
    reports := [Report.info scale_factor scaled_hips_offset],
    ret := RetStatus.FINISHED,
    trace := st3.trace }

/-- `FixAnimationForScaledModelsOperator.execute`, lines 29-101. -/
def execute (interp : Interp) (s : Scene) : ExecResult :=
  match findBaseArmature s with
  | none =>
    { scene := s,
      reports := [Report.error "No armature named '_base_' found."],
      ret := RetStatus.CANCELLED,
      trace := [] }
  | some armature =>
    match armature.animation_data with
    | none =>
      { scene := s,
        reports := [Report.error "No animation data found."],
        ret := RetStatus.CANCELLED,
        trace := [] }
    | some ad =>
      match ad.action with
      | none =>
        { scene := s,
          reports := [Report.error "No animation data found."],
          ret := RetStatus.CANCELLED,
          trace := [] }
      | some action => runMain interp s armature ad action

/-- A registered float property: name, description, default and bounds. -/
structure FloatPropertyDef where
  name : String
  description : String
  default : ℚ
  min : ℚ
  max : ℚ
deriving DecidableEq

/-- Lines 14-20 and 121-127: the `scale_factor` scene property registration. -/
def scale_factor_prop : FloatPropertyDef :=
  { name := "Scale Factor",
    description := "Scale factor for animation adjustments",
    default := 1,
    min := 1/10,
    max := 100 }

/-- The hips offset value as the operator computes it on the original data:
the pose is first set to the action's first frame, then the negated hips
first-frame Y position is read. -/
def hipsOffsetOf (interp : Interp) (armature : Object) (action : Action) : ℚ :=
  let ff := pyInt action.frame_range.1
  computeHipsYOffset action (armature.pose_bones.map (frameSetBone interp action ff)) ff

/-- Value transform the hips pass performs on one keyframe. -/
def scaleKF (s : ℚ) (k : Keyframe) : Keyframe := { k with value := k.value * s }

/-- Value transform the Root pass performs at one visited frame. -/
def bumpAt (t : ℚ) (dv : ℚ) (k : Keyframe) : Keyframe :=
  if k.frame = t then { k with value := k.value + dv } else k

/-- Value transform the Root pass performs over a list of visited frames. -/
def bumpMany (L : List ℤ) (dv : ℚ) (k : Keyframe) : Keyframe :=
  if L.any (fun f => decide ((f : ℚ) = k.frame)) then { k with value := k.value + dv }
  else k

/-- A constant interpolation stand-in for the host's curve evaluation,
used to instantiate `Interp` at concrete inputs. -/
def constInterp : Interp := fun _ _ cur => cur

/-- The action stored on the scene's `_base_` armature, if any. -/
def sceneAction (sc : Scene) : Option Action :=
  (findBaseArmature sc).bind (fun o => o.animation_data.bind (fun a => a.action))

/-- The Root Y-location F-curve left behind by a run. -/
def resultRootFC (r : ExecResult) : Option FCurve :=
  (sceneAction r.scene).bind (fun a => findFC a.fcurves (locPath "Root") 1)

/-- The hips Y-location F-curve left behind by a run. -/
def resultHipsFC (r : ExecResult) : Option FCurve :=
  (sceneAction r.scene).bind (fun a => findFC a.fcurves (locPath "hips") 1)

/-- A sample Root Y-location F-curve. -/
def demoRootFC : FCurve :=
  { data_path := locPath "Root"
    array_index := 1
    keyframe_points := [{ frame := 1, value := 2 }, { frame := 3, value := 4 }] }

/-- A sample hips Y-location F-curve. -/
def demoHipsFC : FCurve :=
  { data_path := locPath "hips"
    array_index := 1
    keyframe_points := [{ frame := 1, value := 3 }, { frame := 2, value := 1 }] }

/-- A sample hips X-location F-curve (a non-target channel). -/
def demoHipsXFC : FCurve :=
  { data_path := locPath "hips"
    array_index := 0
    keyframe_points := [{ frame := 1, value := 7 }] }

/-- A sample action with both target curves and one non-target curve over
frames 1 to 3. -/
def demoAction : Action :=
  { fcurves := [demoRootFC, demoHipsFC, demoHipsXFC]
    frame_range := (1, 3) }

/-- A sample `_base_` armature with Root and hips bones. -/
def demoArm : Object :=
  { name := "_base_"
    objType := "ARMATURE"
    pose_bones := [{ name := "Root", location := ⟨0, 0, 0⟩ },
                   { name := "hips", location := ⟨0, 0, 0⟩ }]
    animation_data := some { action := some demoAction } }

/-- A sample scene at scale factor 2. -/
def demoScene : Scene :=
  { objects := [demoArm]
    scale_factor := 2
    frame_current := 0
    mode := "OBJECT" }

/-- A one-keyframe Root curve holding value 5 at frame 1. -/
def oneRootFC : FCurve :=
  { data_path := locPath "Root"
    array_index := 1
    keyframe_points := [{ frame := 1, value := 5 }] }

/-- A one-keyframe hips curve holding value 0 at frame 1. -/
def zeroHipsFC : FCurve :=
  { data_path := locPath "hips"
    array_index := 1
    keyframe_points := [{ frame := 1, value := 0 }] }

/-- An action whose hips Y value at the first frame is 0. -/
def scaleOneAction : Action :=
  { fcurves := [oneRootFC, zeroHipsFC]
    frame_range := (1, 1) }

/-- A `_base_` armature carrying `scaleOneAction`. -/
def scaleOneArm : Object :=
  { name := "_base_"
    objType := "ARMATURE"
    pose_bones := [{ name := "Root", location := ⟨0, 0, 0⟩ },
                   { name := "hips", location := ⟨0, 0, 0⟩ }]
    animation_data := some { action := some scaleOneAction } }

/-- A scene at scale factor 1 whose hips Y at the first frame is 0. -/
def sceneScaleOne : Scene :=
  { objects := [scaleOneArm]
    scale_factor := 1
    frame_current := 0
    mode := "POSE" }

/-- A one-keyframe hips curve holding value 1 at frame 1. -/
def unitHipsFC : FCurve :=
  { data_path := locPath "hips"
    array_index := 1
    keyframe_points := [{ frame := 1, value := 1 }] }

/-- An action whose hips Y value at the first frame is 1. -/
def identAction : Action :=
  { fcurves := [oneRootFC, unitHipsFC]
    frame_range := (1, 1) }

/-- A `_base_` armature carrying `identAction`. -/
def identArm : Object :=
  { name := "_base_"
    objType := "ARMATURE"
    pose_bones := [{ name := "Root", location := ⟨0, 0, 0⟩ },
                   { name := "hips", location := ⟨0, 0, 0⟩ }]
    animation_data := some { action := some identAction } }

/-- A scene at scale factor 1 whose hips Y at the first frame is 1. -/
def sceneIdent : Scene :=
  { objects := [identArm]
    scale_factor := 1
    frame_current := 0
    mode := "POSE" }

/-- An action over frames 1 to 2 with a hips curve but no Root curve. -/
def noRootAction : Action :=
  { fcurves := [zeroHipsFC]
    frame_range := (1, 2) }

/-- A `_base_` armature without a Root pose bone. -/
def noRootArm : Object :=
  { name := "_base_"
    objType := "ARMATURE"
    pose_bones := [{ name := "hips", location := ⟨0, 0, 0⟩ }]
    animation_data := some { action := some noRootAction } }

/-- A scene whose armature has no Root pose bone. -/
def sceneNoRoot : Scene :=
  { objects := [noRootArm]
    scale_factor := 2
    frame_current := 0
    mode := "POSE" }

/-- A `_base_` armature without animation data. -/
def noAnimArm : Object :=
  { name := "_base_"
    objType := "ARMATURE"
    pose_bones := []
    animation_data := none }

/-- A scene whose armature has no animation data. -/
def sceneNoAnim : Scene :=
  { objects := [noAnimArm]
    scale_factor := 1
    frame_current := 7
    mode := "OBJECT" }

/-- A scene with no objects at all. -/
def sceneEmpty : Scene :=
  { objects := []
    scale_factor := 1
    frame_current := 7
    mode := "OBJECT" }

/-- A hips curve whose only keyframe sits after the first frame. -/
def lateHipsFC : FCurve :=
  { data_path := locPath "hips"
    array_index := 1
    keyframe_points := [{ frame := 2, value := 3 }] }

/-- An action whose hips curve has no keyframe at the first frame. -/
def lateAction : Action :=
  { fcurves := [lateHipsFC]
    frame_range := (1, 2) }

/-- A `_base_` armature carrying `lateAction`. -/
def lateArm : Object :=
  { name := "_base_"
    objType := "ARMATURE"
    pose_bones := [{ name := "hips", location := ⟨0, 4, 0⟩ }]
    animation_data := some { action := some lateAction } }

/-- A scene whose hips curve has no keyframe at the first frame. -/
def sceneLate : Scene :=
  { objects := [lateArm]
    scale_factor := 2
    frame_current := 0
    mode := "POSE" }

/-- The working state right after the initial scrub to the first frame
(lines 56-59). -/
def startState (interp : Interp) (s : Scene) (armature : Object) (action : Action) :
    WorkState :=
  frameSet interp (pyInt action.frame_range.1)
    { act := action, bones := armature.pose_bones, frame := s.frame_current, trace := [] }

/-- The per-frame Root correction: scale factor plus scaled hips offset. -/
def rootDelta (interp : Interp) (s : Scene) (armature : Object) (action : Action) : ℚ :=
  s.scale_factor + hipsOffsetOf interp armature action * s.scale_factor

/-- The final working state of a successful run: the Root pass followed by
the hips pass. -/
def finalState (interp : Interp) (s : Scene) (armature : Object) (action : Action) :
    WorkState :=
  hipsPass interp s.scale_factor
    (rootPass interp (rootDelta interp s armature action) (startState interp s armature action))

/-- The two rewritten channels have distinct data paths. -/
theorem locPath_root_ne_hips : locPath "Root" ≠ locPath "hips" := by decide

/-- A found bone carries the looked-up name. -/
theorem findBone_name {bones : List PoseBone} {n : String} {b : PoseBone}
    (h : findBone bones n = some b) : b.name = n := by
  have := List.find?_some h
  simpa using this

/-- Bone lookup commutes with a name-preserving map. -/
theorem findBone_map {bones : List PoseBone} {n : String} {f : PoseBone → PoseBone}
    (hf : ∀ b, (f b).name = b.name) :
    findBone (bones.map f) n = (findBone bones n).map f := by
  induction bones with
  | nil => rfl
  | cons b rest ih =>
    simp only [findBone, List.map_cons, List.find?_cons, hf] at *
    cases b.name == n
    · exact ih
    · rfl

/-- Updating the looked-up bone rewrites exactly the bone the lookup finds. -/
theorem findBone_update {bones : List PoseBone} {n : String} {f : PoseBone → PoseBone}
    (hf : ∀ b, (f b).name = b.name) :
    findBone (updateBoneFirst bones n f) n = (findBone bones n).map f := by
  induction bones with
  | nil => rfl
  | cons b rest ih =>
    by_cases h : (b.name == n) = true
    · simp [updateBoneFirst, findBone, List.find?_cons, hf, h]
    · simp only [updateBoneFirst, findBone, List.find?_cons, h, if_false,
        Bool.false_eq_true, Bool.of_not_eq_true h] at *
      exact ih

/-- `hasBone` as a plain any-scan over the names. -/
theorem hasBone_eq_any (bones : List PoseBone) (n : String) :
    hasBone bones n = bones.any (fun b => b.name == n) := by
  induction bones with
  | nil => rfl
  | cons b rest ih =>
    simp only [hasBone, findBone, List.find?_cons, List.any_cons] at *
    cases b.name == n
    · simpa using ih
    · rfl

/-- An any-scan of names factors through the name list. -/
theorem any_name_eq (bones : List PoseBone) (n : String) :
    bones.any (fun b => b.name == n) = (bones.map PoseBone.name).any (fun m => m == n) := by
  induction bones with
  | nil => rfl
  | cons b rest ih => simp [List.any_cons, ih]

/-- `hasBone` only depends on the list of bone names. -/
theorem hasBone_congr {b1 b2 : List PoseBone} (n : String)
    (h : b1.map PoseBone.name = b2.map PoseBone.name) :
    hasBone b1 n = hasBone b2 n := by
  rw [hasBone_eq_any, hasBone_eq_any, any_name_eq, any_name_eq, h]

/-- A name-preserving map keeps the name list. -/
theorem names_map {bones : List PoseBone} {f : PoseBone → PoseBone}
    (hf : ∀ b, (f b).name = b.name) :
    (bones.map f).map PoseBone.name = bones.map PoseBone.name := by
  rw [List.map_map]
  exact List.map_congr_left (fun b _ => hf b)

/-- A name-preserving first-update keeps the name list. -/
theorem names_update {bones : List PoseBone} {n : String} {f : PoseBone → PoseBone}
    (hf : ∀ b, (f b).name = b.name) :
    (updateBoneFirst bones n f).map PoseBone.name = bones.map PoseBone.name := by
  induction bones with
  | nil => rfl
  | cons b rest ih =>
    by_cases h : (b.name == n) = true
    · rw [updateBoneFirst, if_pos h, List.map_cons, List.map_cons, hf]
    · rw [updateBoneFirst, if_neg h, List.map_cons, List.map_cons, ih]

/-- A frame-preserving keyframe map keeps the frame list. -/
theorem frames_map {kfs : List Keyframe} {f : Keyframe → Keyframe}
    (hf : ∀ k, (f k).frame = k.frame) :
    (kfs.map f).map Keyframe.frame = kfs.map Keyframe.frame := by
  rw [List.map_map]
  exact List.map_congr_left (fun k _ => hf k)

/-- `scaleKF` keeps the frame. -/
theorem scaleKF_frame (s : ℚ) (k : Keyframe) : (scaleKF s k).frame = k.frame := rfl

/-- `bumpAt` keeps the frame. -/
theorem bumpAt_frame (t dv : ℚ) (k : Keyframe) : (bumpAt t dv k).frame = k.frame := by
  rw [bumpAt]
  split <;> rfl

/-- `bumpMany` keeps the frame. -/
theorem bumpMany_frame (L : List ℤ) (dv : ℚ) (k : Keyframe) :
    (bumpMany L dv k).frame = k.frame := by
  rw [bumpMany]
  split <;> rfl

/-- In a keyframe list with pairwise distinct frames, a frame determines
the keyframe. -/
theorem keyframe_unique {kfs : List Keyframe}
    (hnd : (kfs.map Keyframe.frame).Nodup) {k1 k2 : Keyframe}
    (h1 : k1 ∈ kfs) (h2 : k2 ∈ kfs) (h : k1.frame = k2.frame) : k1 = k2 :=
  List.inj_on_of_nodup_map hnd h1 h2 h

/-- Curve evaluation at an exact keyframe frame returns the keyframe value. -/
theorem evalAt_keyed {interp : Interp} {fc : FCurve} {t cur : ℚ} {k : Keyframe}
    (h : fc.keyframe_points.find? (fun k => decide (k.frame = t)) = some k) :
    FCurve.evalAt interp fc t cur = k.value := by
  rw [FCurve.evalAt, h]

/-- Keyframe insertion at an already-keyed frame only replaces the value. -/
theorem insertKey_replace {kfs : List Keyframe} {t v : ℚ}
    (h : kfs.any (fun k => decide (k.frame = t)) = true) :
    insertKey kfs t v =
      kfs.map (fun k => if k.frame = t then { k with value := v } else k) := by
  rw [insertKey, if_pos h]

/-- A positive any-scan produces a find? hit. -/
theorem find?_of_any {α : Type} {p : α → Bool} {l : List α} (h : l.any p = true) :
    ∃ x, l.find? p = some x := by
  have hs : (l.find? p).isSome := List.find?_isSome.mpr (List.any_eq_true.mp h)
  exact Option.isSome_iff_exists.mp hs

/-- Unfolding the F-curve match predicate. -/
theorem fcMatch_iff {fc : FCurve} {p : String} {i : Nat} :
    fcMatch fc p i = true ↔ fc.data_path = p ∧ fc.array_index = i := by
  simp [fcMatch]

/-- Rewriting the first matching F-curve rewrites exactly the curve the
find returns. -/
theorem findFC_mapFirst_same {fcs : List FCurve} {p : String} {i : Nat}
    {g : FCurve → FCurve} {fc : FCurve}
    (hg : ∀ fc0, fcMatch (g fc0) p i = fcMatch fc0 p i)
    (h : findFC fcs p i = some fc) :
    findFC (mapFirstFCurve fcs p i g) p i = some (g fc) := by
  induction fcs with
  | nil => exact absurd h (by simp [findFC])
  | cons a rest ih =>
    cases ha : fcMatch a p i with
    | true =>
      simp only [findFC, List.find?_cons, ha, Option.some.injEq] at h
      subst h
      rw [mapFirstFCurve, if_pos ha]
      simp only [findFC, List.find?_cons, hg a, ha]
    | false =>
      simp only [findFC, List.find?_cons, ha] at h
      rw [mapFirstFCurve, if_neg (by simp [ha])]
      simp only [findFC, List.find?_cons, ha]
      exact ih h

/-- Rewriting the first (p, i)-matching F-curve leaves every other find
query unchanged, provided the rewrite keeps the curve's key. -/
theorem findFC_mapFirst_other {fcs : List FCurve} {p p' : String} {i i' : Nat}
    {g : FCurve → FCurve}
    (hg : ∀ fc0, fcMatch (g fc0) p' i' = fcMatch fc0 p' i')
    (hne : p' ≠ p ∨ i' ≠ i) :
    findFC (mapFirstFCurve fcs p i g) p' i' = findFC fcs p' i' := by
  induction fcs with
  | nil => rfl
  | cons a rest ih =>
    cases ha : fcMatch a p i with
    | true =>
      have hak := fcMatch_iff.mp ha
      have ha' : fcMatch a p' i' = false := by
        cases hq : fcMatch a p' i' with
        | false => rfl
        | true =>
          have hak' := fcMatch_iff.mp hq
          rcases hne with hne | hne
          · exact absurd (hak'.1.symm.trans hak.1) hne
          · exact absurd (hak'.2.symm.trans hak.2) hne
      rw [mapFirstFCurve, if_pos ha]
      simp only [findFC, List.find?_cons, hg a, ha']
    | false =>
      rw [mapFirstFCurve, if_neg (by simp [ha])]
      simp only [findFC, List.find?_cons]
      cases haq : fcMatch a p' i' with
      | true => rfl
      | false => exact ih

/-- Rewriting the first matching F-curve leaves every non-matching list
position untouched. -/
theorem mapFirst_getElem_other {fcs : List FCurve} {p : String} {i : Nat}
    {g : FCurve → FCurve} {j : Nat} {fc' : FCurve}
    (h : fcs[j]? = some fc') (hm : fcMatch fc' p i = false) :
    (mapFirstFCurve fcs p i g)[j]? = some fc' := by
  induction fcs generalizing j with
  | nil => simp at h
  | cons a rest ih =>
    cases ha : fcMatch a p i with
    | true =>
      rw [mapFirstFCurve, if_pos ha]
      cases j with
      | zero =>
        simp only [List.getElem?_cons_zero, Option.some.injEq] at h
        rw [h] at ha
        rw [ha] at hm
        exact absurd hm (by simp)
      | succ jj =>
        simp only [List.getElem?_cons_succ] at h ⊢
        exact h
    | false =>
      rw [mapFirstFCurve, if_neg (by simp [ha])]
      cases j with
      | zero => simpa using h
      | succ jj =>
        simp only [List.getElem?_cons_succ] at h ⊢
        exact ih h

/-- When the target curve exists, `keyframe_insert` is exactly a first-match
rewrite by `insertKeyFCurve`. -/
theorem keyframeInsertList_eq_mapFirst {fcs : List FCurve} {p : String} {i : Nat}
    {t v : ℚ} {fc : FCurve} (h : findFC fcs p i = some fc) :
    keyframeInsertList fcs p i t v =
      mapFirstFCurve fcs p i (fun fc0 => insertKeyFCurve fc0 t v) := by
  induction fcs with
  | nil => exact absurd h (by simp [findFC])
  | cons a rest ih =>
    cases ha : fcMatch a p i with
    | true =>
      rw [keyframeInsertList, if_pos ha, mapFirstFCurve, if_pos ha]
    | false =>
      simp only [findFC, List.find?_cons, ha] at h
      rw [keyframeInsertList, if_neg (by simp [ha]), mapFirstFCurve,
        if_neg (by simp [ha]), ih h]

/-- `insertKeyFCurve` keeps the curve's key. -/
theorem insertKeyFCurve_key (t v : ℚ) (p' : String) (i' : Nat) (fc : FCurve) :
    fcMatch (insertKeyFCurve fc t v) p' i' = fcMatch fc p' i' := rfl

/-- Specialisation of `findFC_mapFirst_same` to keyframe-only rewrites. -/
theorem findFC_mapFirst_same_kps {fcs : List FCurve} {p : String} {i : Nat} {fc : FCurve}
    (g : FCurve → List Keyframe) (h : findFC fcs p i = some fc) :
    findFC (mapFirstFCurve fcs p i
        (fun fc0 => { fc0 with keyframe_points := g fc0 })) p i =
      some { fc with keyframe_points := g fc } :=
  findFC_mapFirst_same (fun fc0 => rfl) h

/-- Specialisation of `findFC_mapFirst_other` to keyframe-only rewrites. -/
theorem findFC_mapFirst_other_kps {fcs : List FCurve} {p p' : String} {i i' : Nat}
    (g : FCurve → List Keyframe) (hne : p' ≠ p ∨ i' ≠ i) :
    findFC (mapFirstFCurve fcs p i
        (fun fc0 => { fc0 with keyframe_points := g fc0 })) p' i' =
      findFC fcs p' i' :=
  findFC_mapFirst_other (fun fc0 => rfl) hne

/-- Re-evaluating all bones keeps the name list. -/
theorem names_frameSet (interp : Interp) (a : Action) (t : ℤ) (bones : List PoseBone) :
    ((bones.map (frameSetBone interp a t)).map PoseBone.name) = bones.map PoseBone.name :=
  names_map (fun b => rfl)

/-- A location-only bone update keeps the name list. -/
theorem names_update_loc (bones : List PoseBone) (n : String) (g : PoseBone → Vec3) :
    (updateBoneFirst bones n (fun b => { b with location := g b })).map PoseBone.name =
      bones.map PoseBone.name :=
  names_update (fun b => rfl)

/-- Setting an element after a prefix of known length. -/
theorem set_append_len {α : Type} (xs : List α) (y z : α) (ys : List α) :
    (xs ++ y :: ys).set xs.length z = xs ++ z :: ys := by
  induction xs with
  | nil => rfl
  | cons x xs ih => simpa [List.set] using ih

/-- Membership in the Root-pass frame list is exactly the frame range. -/
theorem mem_frameList {a b f : ℤ} : f ∈ frameList a b ↔ a ≤ f ∧ f ≤ b := by
  rw [frameList]
  simp only [List.mem_map, List.mem_range]
  constructor
  · rintro ⟨i, hi, rfl⟩
    omega
  · rintro ⟨h1, h2⟩
    exact ⟨(f - a).toNat, by omega, by omega⟩

/-- The Root-pass frame list visits no frame twice. -/
theorem frameList_nodup (a b : ℤ) : (frameList a b).Nodup := by
  rw [frameList]
  exact (List.nodup_range _).map (fun i j h => by omega)

/-- Re-evaluating a bone's channels keeps its name. -/
theorem frameSetBone_name (interp : Interp) (a : Action) (t : ℤ) (b : PoseBone) :
    (frameSetBone interp a t b).name = b.name := rfl

/-- One Root-pass iteration: everything besides the Root Y channel's
keyframe values is untouched — other find queries, non-matching F-curve
slots, the frame range and the bone names — and the trace grows by the
visited frame. -/
theorem rootStep_untouched (interp : Interp) (dv : ℚ) (st : WorkState) (frame : ℤ) :
    (∀ p' i', p' ≠ locPath "Root" ∨ i' ≠ 1 →
      findFC (rootStep interp dv st frame).act.fcurves p' i' = findFC st.act.fcurves p' i') ∧
    (∀ (j : Nat) (fc' : FCurve), st.act.fcurves[j]? = some fc' →
      fcMatch fc' (locPath "Root") 1 = false →
      (rootStep interp dv st frame).act.fcurves[j]? = some fc') ∧
    (rootStep interp dv st frame).act.frame_range = st.act.frame_range ∧
    (rootStep interp dv st frame).trace = st.trace ++ [frame] ∧
    (rootStep interp dv st frame).bones.map PoseBone.name = st.bones.map PoseBone.name := by
  simp only [rootStep, frameSet]
  cases hfc : findFC st.act.fcurves (locPath "Root") 1 with
  | none =>
    exact ⟨fun p' i' _ => rfl, fun j fc' h _ => h, rfl, rfl,
      names_map (fun b => rfl)⟩
  | some fc =>
    dsimp only
    by_cases hany : fc.keyframe_points.any (fun k => decide (k.frame = (frame : ℚ))) = true
    · rw [if_pos hany]
      refine ⟨?_, ?_, rfl, rfl, ?_⟩
      · intro p' i' hne
        rw [keyframeInsertList_eq_mapFirst hfc]
        exact findFC_mapFirst_other (insertKeyFCurve_key _ _ _ _) hne
      · intro j fc' h hm
        rw [keyframeInsertList_eq_mapFirst hfc]
        exact mapFirst_getElem_other h hm
      · dsimp only
        rw [names_update (f := (fun b => { b with location := { b.location with y := b.location.y + dv } })) (fun b => rfl),
          names_map (f := frameSetBone interp st.act frame) (fun b => rfl)]
    · rw [if_neg hany]
      exact ⟨fun p' i' _ => rfl, fun j fc' h _ => h, rfl, rfl,
        names_map (fun b => rfl)⟩

/-- One Root-pass iteration on the Root Y F-curve itself: the keyframe at
the visited frame (when there is one) has its value shifted by the given
delta, all other keyframes stay. -/
theorem rootStep_main {interp : Interp} {dv : ℚ} {st : WorkState} {frame : ℤ} {fc : FCurve}
    (hfc : findFC st.act.fcurves (locPath "Root") 1 = some fc)
    (hnd : (fc.keyframe_points.map Keyframe.frame).Nodup)
    (hb : hasBone st.bones "Root" = true) :
    findFC (rootStep interp dv st frame).act.fcurves (locPath "Root") 1 =
      some { fc with keyframe_points :=
               fc.keyframe_points.map (bumpAt (frame : ℚ) dv) } := by
  obtain ⟨b, hfb⟩ := Option.isSome_iff_exists.mp hb
  simp only [rootStep, frameSet]
  rw [hfc]
  dsimp only
  by_cases hany : fc.keyframe_points.any (fun k => decide (k.frame = (frame : ℚ))) = true
  · rw [if_pos hany]
    obtain ⟨k0, hk0⟩ := find?_of_any hany
    have hk0f : k0.frame = (frame : ℚ) := by
      have := List.find?_some hk0
      simpa using this
    have hk0m : k0 ∈ fc.keyframe_points := List.mem_of_find?_eq_some hk0
    have hfb2 : findBone
        (updateBoneFirst (st.bones.map (frameSetBone interp st.act frame)) "Root"
          (fun b => { b with location := { b.location with y := b.location.y + dv } }))
        "Root" =
        some (let b2 := frameSetBone interp st.act frame b
              { b2 with location := { b2.location with y := b2.location.y + dv } }) := by
      rw [findBone_update (f := (fun b => { b with location := { b.location with y := b.location.y + dv } })) (fun b => rfl),
        findBone_map (f := frameSetBone interp st.act frame) (fun b => rfl), hfb]
      rfl
    rw [hfb2]
    have hval : (frameSetBone interp st.act frame b).location.y = k0.value := by
      show evalBoneChannel interp st.act b.name 1 (frame : ℚ) b.location.y = k0.value
      rw [findBone_name hfb]
      simp only [evalBoneChannel, hfc]
      exact evalAt_keyed hk0
    simp only [hval]
    rw [keyframeInsertList_eq_mapFirst hfc,
      findFC_mapFirst_same (fun fc0 => insertKeyFCurve_key _ _ _ _ fc0) hfc,
      insertKeyFCurve, insertKey_replace hany]
    refine congrArg some ?_
    refine congrArg (fun kps => { fc with keyframe_points := kps }) ?_
    refine List.map_congr_left (fun k hk => ?_)
    by_cases hkf : k.frame = (frame : ℚ)
    · have : k = k0 := keyframe_unique hnd hk hk0m (hkf.trans hk0f.symm)
      subst this
      simp [bumpAt, hkf]
    · rw [bumpAt, if_neg hkf, if_neg hkf]
  · rw [if_neg hany]
    rw [hfc]
    have hid : fc.keyframe_points.map (bumpAt (frame : ℚ) dv) = fc.keyframe_points := by
      have hall : ∀ k ∈ fc.keyframe_points, bumpAt (frame : ℚ) dv k = k := by
        intro k hk
        have hne : ¬ k.frame = (frame : ℚ) := by
          intro hkf
          exact hany (List.any_eq_true.mpr ⟨k, hk, by simpa using hkf⟩)
        rw [bumpAt, if_neg hne]
      calc fc.keyframe_points.map (bumpAt (frame : ℚ) dv)
          = fc.keyframe_points.map id := List.map_congr_left (fun k hk => hall k hk)
        _ = fc.keyframe_points := List.map_id _
    rw [hid]

/-- `bumpMany` over the empty frame list is the identity. -/
theorem bumpMany_nil (dv : ℚ) (k : Keyframe) : bumpMany [] dv k = k := rfl

/-- Bumping at a fresh frame first, then over the remaining frames, equals
bumping over the whole list. -/
theorem bumpMany_cons {f : ℤ} {L : List ℤ} (dv : ℚ) (k : Keyframe) (hf : f ∉ L) :
    bumpMany L dv (bumpAt (f : ℚ) dv k) = bumpMany (f :: L) dv k := by
  by_cases hk : k.frame = (f : ℚ)
  · have hL : (L.any fun x => decide ((x : ℚ) = k.frame)) = false := by
      rw [List.any_eq_false]
      intro x hx
      simp only [decide_eq_true_eq]
      intro hxf
      have hxe : x = f := by exact_mod_cast hxf.trans hk
      exact hf (hxe ▸ hx)
    have h1 : bumpAt (f : ℚ) dv k = { k with value := k.value + dv } := by
      rw [bumpAt, if_pos hk]
    have hc : (L.any fun x =>
        decide ((x : ℚ) = ({ k with value := k.value + dv } : Keyframe).frame)) = false := hL
    have h2 : bumpMany L dv { k with value := k.value + dv } =
        { k with value := k.value + dv } := by
      rw [bumpMany, if_neg (by simp [hc])]
    have h3 : bumpMany (f :: L) dv k = { k with value := k.value + dv } := by
      rw [bumpMany, if_pos (by simp [List.any_cons, hk])]
    rw [h1, h2, h3]
  · have hhead : (decide ((f : ℚ) = k.frame)) = false := decide_eq_false (fun h => hk h.symm)
    rw [bumpAt, if_neg hk, bumpMany, bumpMany, List.any_cons, hhead, Bool.false_or]

/-- Folding the Root step over a duplicate-free frame list bumps each Root Y
keyframe once for each visited frame it sits on. -/
theorem rootFold_main {interp : Interp} {dv : ℚ} :
    ∀ (L : List ℤ) (st : WorkState) (fc : FCurve),
      findFC st.act.fcurves (locPath "Root") 1 = some fc →
      (fc.keyframe_points.map Keyframe.frame).Nodup →
      hasBone st.bones "Root" = true →
      L.Nodup →
      findFC (L.foldl (rootStep interp dv) st).act.fcurves (locPath "Root") 1 =
        some { fc with keyframe_points := fc.keyframe_points.map (bumpMany L dv) } := by
  intro L
  induction L with
  | nil =>
    intro st fc hfc hnd hb hL
    have hid : fc.keyframe_points.map (bumpMany [] dv) = fc.keyframe_points := by
      calc fc.keyframe_points.map (bumpMany [] dv)
          = fc.keyframe_points.map id := List.map_congr_left (fun k _ => bumpMany_nil dv k)
        _ = fc.keyframe_points := List.map_id _
    rw [List.foldl_nil, hfc, hid]
  | cons f L ih =>
    intro st fc hfc hnd hb hL
    have hstep := @rootStep_main interp dv st f fc hfc hnd hb
    obtain ⟨u1, u2, u3, u4, u5⟩ := rootStep_untouched interp dv st f
    have hnd1 : (((fc.keyframe_points.map (bumpAt (f : ℚ) dv))).map Keyframe.frame).Nodup := by
      rw [frames_map (fun k => bumpAt_frame _ _ k)]
      exact hnd
    have hb1 : hasBone (rootStep interp dv st f).bones "Root" = true := by
      rw [hasBone_congr "Root" u5]
      exact hb
    have hrec := ih (rootStep interp dv st f) _ hstep hnd1 hb1 (List.Nodup.of_cons hL)
    rw [List.foldl_cons, hrec]
    refine congrArg some ?_
    refine congrArg (fun kps => { fc with keyframe_points := kps }) ?_
    rw [List.map_map]
    refine List.map_congr_left (fun k _ => ?_)
    exact bumpMany_cons dv k ((List.nodup_cons.mp hL).1)

/-- Folding the Root step changes nothing besides the Root Y channel, and
appends exactly the visited frames to the trace. -/
theorem rootFold_untouched (interp : Interp) (dv : ℚ) :
    ∀ (L : List ℤ) (st : WorkState),
      (∀ p' i', p' ≠ locPath "Root" ∨ i' ≠ 1 →
        findFC (L.foldl (rootStep interp dv) st).act.fcurves p' i' =
          findFC st.act.fcurves p' i') ∧
      (∀ (j : Nat) (fc' : FCurve), st.act.fcurves[j]? = some fc' →
        fcMatch fc' (locPath "Root") 1 = false →
        (L.foldl (rootStep interp dv) st).act.fcurves[j]? = some fc') ∧
      (L.foldl (rootStep interp dv) st).act.frame_range = st.act.frame_range ∧
      (L.foldl (rootStep interp dv) st).trace = st.trace ++ L ∧
      (L.foldl (rootStep interp dv) st).bones.map PoseBone.name =
        st.bones.map PoseBone.name := by
  intro L
  induction L with
  | nil =>
    intro st
    exact ⟨fun _ _ _ => rfl, fun j fc' h _ => h, rfl, by simp, rfl⟩
  | cons f L ih =>
    intro st
    obtain ⟨u1, u2, u3, u4, u5⟩ := rootStep_untouched interp dv st f
    obtain ⟨v1, v2, v3, v4, v5⟩ := ih (rootStep interp dv st f)
    rw [List.foldl_cons]
    refine ⟨fun p' i' h => (v1 p' i' h).trans (u1 p' i' h),
      fun j fc' h hm => v2 j fc' (u2 j fc' h hm) hm,
      v3.trans u3, ?_, v5.trans u5⟩
    rw [v4, u4, List.append_assoc]
    rfl

/-- The Root pass on the Root Y F-curve: with the Root bone present, every
keyframe sitting on an integer frame of the range is shifted by the delta
exactly once. -/
theorem rootPass_main {interp : Interp} {dv : ℚ} {st : WorkState} {fc : FCurve}
    (hfc : findFC st.act.fcurves (locPath "Root") 1 = some fc)
    (hnd : (fc.keyframe_points.map Keyframe.frame).Nodup)
    (hb : hasBone st.bones "Root" = true) :
    findFC (rootPass interp dv st).act.fcurves (locPath "Root") 1 =
      some { fc with keyframe_points := fc.keyframe_points.map (bumpMany (frameList (pyInt st.act.frame_range.1) (pyInt st.act.frame_range.2)) dv) } := by
  rw [rootPass, if_pos hb]
  exact rootFold_main _ st fc hfc hnd hb (frameList_nodup _ _)

/-- The Root pass touches nothing besides the Root Y channel. -/
theorem rootPass_untouched (interp : Interp) (dv : ℚ) (st : WorkState) :
    (∀ p' i', p' ≠ locPath "Root" ∨ i' ≠ 1 →
      findFC (rootPass interp dv st).act.fcurves p' i' = findFC st.act.fcurves p' i') ∧
    (∀ (j : Nat) (fc' : FCurve), st.act.fcurves[j]? = some fc' →
      fcMatch fc' (locPath "Root") 1 = false →
      (rootPass interp dv st).act.fcurves[j]? = some fc') ∧
    (rootPass interp dv st).act.frame_range = st.act.frame_range ∧
    (rootPass interp dv st).bones.map PoseBone.name = st.bones.map PoseBone.name := by
  rw [rootPass]
  by_cases hb : hasBone st.bones "Root" = true
  · rw [if_pos hb]
    obtain ⟨v1, v2, v3, v4, v5⟩ := rootFold_untouched interp dv _ st
    exact ⟨v1, v2, v3, v5⟩
  · rw [if_neg hb]
    exact ⟨fun _ _ _ => rfl, fun j fc' h _ => h, rfl, rfl⟩

/-- With the Root bone present, the Root pass scrubs exactly the integer
frames of the action range, in order. -/
theorem rootPass_trace {interp : Interp} {dv : ℚ} {st : WorkState}
    (hb : hasBone st.bones "Root" = true) :
    (rootPass interp dv st).trace =
      st.trace ++ frameList (pyInt st.act.frame_range.1) (pyInt st.act.frame_range.2) := by
  rw [rootPass, if_pos hb]
  exact (rootFold_untouched interp dv _ st).2.2.2.1

/-- One hips-pass iteration: everything besides the hips Y channel is
untouched — other find queries, non-matching F-curve slots, the frame
range and the bone names. -/
theorem hipsStep_untouched (interp : Interp) (s : ℚ) (st : WorkState) (i : Nat) :
    (∀ p' i', p' ≠ locPath "hips" ∨ i' ≠ 1 →
      findFC (hipsStep interp s st i).act.fcurves p' i' = findFC st.act.fcurves p' i') ∧
    (∀ (j : Nat) (fc' : FCurve), st.act.fcurves[j]? = some fc' →
      fcMatch fc' (locPath "hips") 1 = false →
      (hipsStep interp s st i).act.fcurves[j]? = some fc') ∧
    (hipsStep interp s st i).act.frame_range = st.act.frame_range ∧
    (hipsStep interp s st i).bones.map PoseBone.name = st.bones.map PoseBone.name := by
  simp only [hipsStep]
  cases hfc : findFC st.act.fcurves (locPath "hips") 1 with
  | none => exact ⟨fun _ _ _ => rfl, fun j fc' h _ => h, rfl, rfl⟩
  | some fc =>
    dsimp only
    cases hget : fc.keyframe_points[i]? with
    | none => exact ⟨fun _ _ _ => rfl, fun j fc' h _ => h, rfl, rfl⟩
    | some k =>
      dsimp only [frameSet]
      have hfc1 : findFC (mapFirstFCurve st.act.fcurves (locPath "hips") 1
          (fun fc0 => { fc0 with
            keyframe_points := fc0.keyframe_points.set i { k with value := k.value * s } }))
          (locPath "hips") 1 =
          some { fc with keyframe_points := fc.keyframe_points.set i { k with value := k.value * s } } :=
        findFC_mapFirst_same (fun fc0 => rfl) hfc
      refine ⟨?_, ?_, rfl, ?_⟩
      · intro p' i' hne
        rw [keyframeInsertList_eq_mapFirst hfc1,
          findFC_mapFirst_other (fun fc0 => insertKeyFCurve_key _ _ _ _ fc0) hne,
          findFC_mapFirst_other_kps _ hne]
      · intro j fc' h hm
        rw [keyframeInsertList_eq_mapFirst hfc1]
        exact mapFirst_getElem_other (mapFirst_getElem_other h hm) hm
      · dsimp only
        rw [names_update_loc, names_frameSet]

/-- One hips-pass iteration at the first unprocessed index: that keyframe's
value is scaled in place and re-keyed, and the trace grows by its truncated
frame. -/
theorem hipsStep_main {interp : Interp} {s : ℚ} {st : WorkState}
    {A : List Keyframe} {b : Keyframe} {B' : List Keyframe} {fc : FCurve}
    (hfc : findFC st.act.fcurves (locPath "hips") 1 = some fc)
    (hkps : fc.keyframe_points = A.map (scaleKF s) ++ b :: B')
    (hnd : ((A ++ b :: B').map Keyframe.frame).Nodup)
    (hb : hasBone st.bones "hips" = true) :
    findFC (hipsStep interp s st A.length).act.fcurves (locPath "hips") 1 =
      some { fc with keyframe_points := (A ++ [b]).map (scaleKF s) ++ B' } ∧
    (hipsStep interp s st A.length).trace = st.trace ++ [pyInt b.frame] := by
  obtain ⟨bone, hbb⟩ := Option.isSome_iff_exists.mp hb
  have hget : fc.keyframe_points[A.length]? = some b := by
    rw [hkps, List.getElem?_append_right (by simp)]
    simp
  simp only [hipsStep]
  rw [hfc]
  dsimp only
  rw [hget]
  dsimp only [frameSet]
  have hset : fc.keyframe_points.set A.length { b with value := b.value * s } =
      A.map (scaleKF s) ++ scaleKF s b :: B' := by
    rw [hkps, show A.length = (A.map (scaleKF s)).length from (List.length_map _ _).symm,
      set_append_len]
    rfl
  have hfc1 : findFC (mapFirstFCurve st.act.fcurves (locPath "hips") 1 (fun fc0 => { fc0 with keyframe_points := fc0.keyframe_points.set A.length { b with value := b.value * s } })) (locPath "hips") 1 = some { fc with keyframe_points := A.map (scaleKF s) ++ scaleKF s b :: B' } := by
    rw [← hset]
    exact findFC_mapFirst_same_kps (fun fc0 => fc0.keyframe_points.set A.length { b with value := b.value * s }) hfc
  have hfb2 : ∀ (a1 : Action), findBone (updateBoneFirst (st.bones.map (frameSetBone interp a1 (pyInt b.frame))) "hips" (fun b0 => { b0 with location := { b0.location with y := b.value * s } })) "hips" = some { frameSetBone interp a1 (pyInt b.frame) bone with location := { (frameSetBone interp a1 (pyInt b.frame) bone).location with y := b.value * s } } := by
    intro a1
    rw [findBone_update (f := fun b0 => { b0 with location := { b0.location with y := b.value * s } }) (fun b0 => rfl),
      findBone_map (f := frameSetBone interp a1 (pyInt b.frame)) (fun b0 => rfl), hbb]
    rfl
  rw [hfb2]
  dsimp only
  refine ⟨?_, rfl⟩
  have hfr : (A.map (scaleKF s) ++ scaleKF s b :: B').map Keyframe.frame =
      (A ++ b :: B').map Keyframe.frame := by
    simp only [List.map_append, List.map_cons]
    rw [frames_map (fun k => scaleKF_frame s k)]
    rfl
  have hany : ((A.map (scaleKF s) ++ scaleKF s b :: B').any
      (fun k => decide (k.frame = b.frame))) = true := by
    refine List.any_eq_true.mpr ⟨scaleKF s b, by simp, by simp [scaleKF_frame]⟩
  rw [keyframeInsertList_eq_mapFirst hfc1,
    findFC_mapFirst_same (fun fc0 => insertKeyFCurve_key _ _ _ _ fc0) hfc1,
    insertKeyFCurve, insertKey_replace hany]
  refine congrArg some ?_
  have hnd1 : ((A.map (scaleKF s) ++ scaleKF s b :: B').map Keyframe.frame).Nodup := by
    rw [hfr]
    exact hnd
  have hmem : scaleKF s b ∈ A.map (scaleKF s) ++ scaleKF s b :: B' := by simp
  have hmapid : (A.map (scaleKF s) ++ scaleKF s b :: B').map
      (fun k => if k.frame = b.frame then { k with value := b.value * s } else k) =
      A.map (scaleKF s) ++ scaleKF s b :: B' := by
    calc (A.map (scaleKF s) ++ scaleKF s b :: B').map
          (fun k => if k.frame = b.frame then { k with value := b.value * s } else k)
        = (A.map (scaleKF s) ++ scaleKF s b :: B').map id := by
          refine List.map_congr_left (fun x hx => ?_)
          by_cases hxf : x.frame = b.frame
          · have hxe : x = scaleKF s b :=
              keyframe_unique hnd1 hx hmem (by rw [hxf, scaleKF_frame])
            subst hxe
            simp [scaleKF]
          · simp [hxf]
      _ = _ := List.map_id _
  rw [hmapid]
  simp [List.append_assoc]

/-- Folding the hips step from index `A.length` over the remaining keyframes
scales each of them exactly once. -/
theorem hipsFold_main {interp : Interp} {s : ℚ} :
    ∀ (m : Nat) (st : WorkState) (A B : List Keyframe) (fc : FCurve),
      findFC st.act.fcurves (locPath "hips") 1 = some fc →
      fc.keyframe_points = A.map (scaleKF s) ++ B →
      ((A ++ B).map Keyframe.frame).Nodup →
      hasBone st.bones "hips" = true →
      B.length = m →
      findFC ((List.range' A.length m).foldl (hipsStep interp s) st).act.fcurves
          (locPath "hips") 1 =
        some { fc with keyframe_points := (A ++ B).map (scaleKF s) } ∧
      ((List.range' A.length m).foldl (hipsStep interp s) st).trace =
        st.trace ++ B.map (fun k => pyInt k.frame) := by
  intro m
  induction m with
  | zero =>
    intro st A B fc hfc hkps hnd hb hlen
    have hBnil : B = [] := List.length_eq_zero.mp hlen
    subst hBnil
    have h1 : (A ++ ([] : List Keyframe)).map (scaleKF s) = fc.keyframe_points := by
      rw [hkps]
      simp
    rw [List.range'_zero, List.foldl_nil]
    constructor
    · rw [hfc, h1]
    · simp
  | succ m ih =>
    intro st A B fc hfc hkps hnd hb hlen
    cases B with
    | nil => simp at hlen
    | cons b B' =>
      obtain ⟨hstep1, hstep2⟩ := hipsStep_main hfc hkps hnd hb
      obtain ⟨u1, u2, u3, u4⟩ := hipsStep_untouched interp s st A.length
      have hb1 : hasBone (hipsStep interp s st A.length).bones "hips" = true := by
        rw [hasBone_congr "hips" u4]
        exact hb
      have hnd1 : (((A ++ [b]) ++ B').map Keyframe.frame).Nodup := by
        rw [List.append_assoc]
        simpa using hnd
      have hlen' : B'.length = m := by simpa using hlen
      have hrec := ih (hipsStep interp s st A.length) (A ++ [b]) B' _ hstep1 rfl hnd1 hb1 hlen'
      have hidx : (A ++ [b]).length = A.length + 1 := by simp
      rw [hidx] at hrec
      rw [List.range'_succ A.length m 1, List.foldl_cons]
      constructor
      · rw [hrec.1]
        simp [List.append_assoc]
      · rw [hrec.2, hstep2, List.append_assoc]
        rfl

/-- The hips pass on the hips Y F-curve: with bone and curve present, every
keyframe value is multiplied by the scale factor exactly once, and the
truncated frame of each keyframe is scrubbed in order. -/
theorem hipsPass_main {interp : Interp} {s : ℚ} {st : WorkState} {fc : FCurve}
    (hfc : findFC st.act.fcurves (locPath "hips") 1 = some fc)
    (hnd : (fc.keyframe_points.map Keyframe.frame).Nodup)
    (hb : hasBone st.bones "hips" = true) :
    findFC (hipsPass interp s st).act.fcurves (locPath "hips") 1 =
      some { fc with keyframe_points := fc.keyframe_points.map (scaleKF s) } ∧
    (hipsPass interp s st).trace =
      st.trace ++ fc.keyframe_points.map (fun k => pyInt k.frame) := by
  rw [hipsPass, if_pos hb, hfc]
  dsimp only
  have h := @hipsFold_main interp s fc.keyframe_points.length st [] fc.keyframe_points fc hfc
    (by simp) (by simpa using hnd) hb rfl
  rw [List.range_eq_range']
  exact h

/-- Folding the hips step changes nothing besides the hips Y channel. -/
theorem hipsFold_untouched (interp : Interp) (s : ℚ) :
    ∀ (L : List Nat) (st : WorkState),
      (∀ p' i', p' ≠ locPath "hips" ∨ i' ≠ 1 →
        findFC (L.foldl (hipsStep interp s) st).act.fcurves p' i' =
          findFC st.act.fcurves p' i') ∧
      (∀ (j : Nat) (fc' : FCurve), st.act.fcurves[j]? = some fc' →
        fcMatch fc' (locPath "hips") 1 = false →
        (L.foldl (hipsStep interp s) st).act.fcurves[j]? = some fc') ∧
      (L.foldl (hipsStep interp s) st).act.frame_range = st.act.frame_range ∧
      (L.foldl (hipsStep interp s) st).bones.map PoseBone.name =
        st.bones.map PoseBone.name := by
  intro L
  induction L with
  | nil =>
    intro st
    exact ⟨fun _ _ _ => rfl, fun j fc' h _ => h, rfl, rfl⟩
  | cons i L ih =>
    intro st
    obtain ⟨u1, u2, u3, u4⟩ := hipsStep_untouched interp s st i
    obtain ⟨v1, v2, v3, v4⟩ := ih (hipsStep interp s st i)
    rw [List.foldl_cons]
    exact ⟨fun p' i' h => (v1 p' i' h).trans (u1 p' i' h),
      fun j fc' h hm => v2 j fc' (u2 j fc' h hm) hm,
      v3.trans u3, v4.trans u4⟩

/-- The hips pass touches nothing besides the hips Y channel. -/
theorem hipsPass_untouched (interp : Interp) (s : ℚ) (st : WorkState) :
    (∀ p' i', p' ≠ locPath "hips" ∨ i' ≠ 1 →
      findFC (hipsPass interp s st).act.fcurves p' i' = findFC st.act.fcurves p' i') ∧
    (∀ (j : Nat) (fc' : FCurve), st.act.fcurves[j]? = some fc' →
      fcMatch fc' (locPath "hips") 1 = false →
      (hipsPass interp s st).act.fcurves[j]? = some fc') ∧
    (hipsPass interp s st).act.frame_range = st.act.frame_range ∧
    (hipsPass interp s st).bones.map PoseBone.name = st.bones.map PoseBone.name := by
  rw [hipsPass]
  by_cases hb : hasBone st.bones "hips" = true
  · rw [if_pos hb]
    cases hfc : findFC st.act.fcurves (locPath "hips") 1 with
    | none => exact ⟨fun _ _ _ => rfl, fun j fc' h _ => h, rfl, rfl⟩
    | some fc =>
      dsimp only
      exact hipsFold_untouched interp s _ st
  · rw [if_neg hb]
    exact ⟨fun _ _ _ => rfl, fun j fc' h _ => h, rfl, rfl⟩

/-- With no `_base_` armature, execute cancels and leaves the scene alone. -/
theorem execute_none {interp : Interp} {s : Scene} (h : findBaseArmature s = none) :
    execute interp s =
      { scene := s, reports := [Report.error "No armature named '_base_' found."],
        ret := RetStatus.CANCELLED, trace := [] } := by
  simp only [execute, h]

/-- With an armature but no animation data, execute cancels. -/
theorem execute_noad {interp : Interp} {s : Scene} {armature : Object}
    (h : findBaseArmature s = some armature) (h2 : armature.animation_data = none) :
    execute interp s =
      { scene := s, reports := [Report.error "No animation data found."],
        ret := RetStatus.CANCELLED, trace := [] } := by
  simp only [execute, h, h2]

/-- With animation data but no action, execute cancels. -/
theorem execute_noact {interp : Interp} {s : Scene} {armature : Object} {ad : AnimData}
    (h : findBaseArmature s = some armature) (h2 : armature.animation_data = some ad)
    (h3 : ad.action = none) :
    execute interp s =
      { scene := s, reports := [Report.error "No animation data found."],
        ret := RetStatus.CANCELLED, trace := [] } := by
  simp only [execute, h, h2, h3]

/-- With armature, animation data and action in hand, execute runs the body. -/
theorem execute_some {interp : Interp} {s : Scene} {armature : Object} {ad : AnimData}
    {action : Action} (h : findBaseArmature s = some armature)
    (h2 : armature.animation_data = some ad) (h3 : ad.action = some action) :
    execute interp s = runMain interp s armature ad action := by
  simp only [execute, h, h2, h3]

/-- The body of a successful run, written through the derived pieces. -/
theorem runMain_eq (interp : Interp) (s : Scene) (armature : Object) (ad : AnimData)
    (action : Action) :
    runMain interp s armature ad action =
      { scene :=
          { s with
            objects := replaceFirstBase s.objects
              { armature with
                pose_bones := (finalState interp s armature action).bones,
                animation_data :=
                  some { ad with action := some (finalState interp s armature action).act } },
            frame_current := (finalState interp s armature action).frame,
            mode := if s.mode == "POSE" then s.mode else "POSE" },
        reports := [Report.info s.scale_factor
          (hipsOffsetOf interp armature action * s.scale_factor)],
        ret := RetStatus.FINISHED,
        trace := (finalState interp s armature action).trace } := rfl

/-- Replacing the found armature keeps it the armature the find returns. -/
theorem findBase_replace {objs : List Object} {newObj : Object}
    (hkey : armMatch newObj = true) :
    ∀ {arm : Object}, objs.find? armMatch = some arm →
      (replaceFirstBase objs newObj).find? armMatch = some newObj := by
  induction objs with
  | nil =>
    intro arm h
    simp at h
  | cons o rest ih =>
    intro arm h
    cases ho : armMatch o with
    | true =>
      rw [replaceFirstBase, if_pos ho]
      simp [List.find?_cons, hkey]
    | false =>
      rw [replaceFirstBase, if_neg (by simp [ho])]
      simp only [List.find?_cons, ho] at h ⊢
      exact ih h

/-- The scene a successful run leaves behind stores the final action. -/
theorem sceneAction_runMain {interp : Interp} {s : Scene} {armature : Object}
    {ad : AnimData} {action : Action} (h : findBaseArmature s = some armature) :
    sceneAction (runMain interp s armature ad action).scene =
      some (finalState interp s armature action).act := by
  have hkey : armMatch armature = true := List.find?_some h
  rw [runMain_eq]
  have hkey2 : armMatch
      { armature with
        pose_bones := (finalState interp s armature action).bones,
        animation_data :=
          some { ad with action := some (finalState interp s armature action).act } } = true :=
    hkey
  have h2 := findBase_replace hkey2 h
  rw [sceneAction, findBaseArmature]
  dsimp only
  rw [h2]
  rfl

/-- The hips offset when the hips Y curve holds a keyframe at the first
frame: the negated keyframe value. -/
theorem hipsOffset_keyed {interp : Interp} {armature : Object} {action : Action}
    {fc : FCurve} {k : Keyframe}
    (hbh : hasBone armature.pose_bones "hips" = true)
    (hfc : findFC action.fcurves (locPath "hips") 1 = some fc)
    (hfind : fc.keyframe_points.find?
      (fun kf => decide (kf.frame = ((pyInt action.frame_range.1 : ℤ) : ℚ))) = some k) :
    hipsOffsetOf interp armature action = -k.value := by
  obtain ⟨b0, hb0⟩ := Option.isSome_iff_exists.mp hbh
  rw [hipsOffsetOf]
  rw [computeHipsYOffset,
    findBone_map (f := frameSetBone interp action (pyInt action.frame_range.1)) (fun b => rfl),
    hb0, hfc]
  simp only [Option.map_some']
  rw [hfind]

/-- The hips offset when the hips Y curve exists but holds no keyframe at
the first frame: zero. -/
theorem hipsOffset_nokey {interp : Interp} {armature : Object} {action : Action}
    {fc : FCurve}
    (hbh : hasBone armature.pose_bones "hips" = true)
    (hfc : findFC action.fcurves (locPath "hips") 1 = some fc)
    (hno : ∀ k ∈ fc.keyframe_points, ¬ k.frame = ((pyInt action.frame_range.1 : ℤ) : ℚ)) :
    hipsOffsetOf interp armature action = 0 := by
  obtain ⟨b0, hb0⟩ := Option.isSome_iff_exists.mp hbh
  have hfind : fc.keyframe_points.find?
      (fun kf => decide (kf.frame = ((pyInt action.frame_range.1 : ℤ) : ℚ))) = none := by
    rw [List.find?_eq_none]
    intro k hk
    simpa using hno k hk
  rw [hipsOffsetOf]
  rw [computeHipsYOffset,
    findBone_map (f := frameSetBone interp action (pyInt action.frame_range.1)) (fun b => rfl),
    hb0, hfc]
  simp only [Option.map_some']
  rw [hfind]

/-- Zero delta makes the Root-pass transform the identity. -/
theorem bumpMany_zero (L : List ℤ) (k : Keyframe) : bumpMany L 0 k = k := by
  rw [bumpMany]
  split
  · cases k
    simp
  · rfl

/-- Scale factor one makes the hips-pass transform the identity. -/
theorem scaleKF_one (k : Keyframe) : scaleKF 1 k = k := by
  cases k
  simp [scaleKF]

/-- The start state holds the original action. -/
theorem startState_act (interp : Interp) (s : Scene) (armature : Object) (action : Action) :
    (startState interp s armature action).act = action := rfl

/-- The start state's bones carry the armature's bone names. -/
theorem startState_names (interp : Interp) (s : Scene) (armature : Object) (action : Action) :
    (startState interp s armature action).bones.map PoseBone.name =
      armature.pose_bones.map PoseBone.name :=
  names_frameSet interp action (pyInt action.frame_range.1) armature.pose_bones

/-- A successful run's stored action. -/
theorem resultAction_eq {interp : Interp} {s : Scene} {armature : Object} {ad : AnimData}
    {action : Action} (hArm : findBaseArmature s = some armature)
    (hAd : armature.animation_data = some ad) (hAct : ad.action = some action) :
    sceneAction (execute interp s).scene = some (finalState interp s armature action).act := by
  rw [execute_some hArm hAd hAct]
  exact sceneAction_runMain hArm

/-- C1.  On a successful run, every keyframe point on the hips bone's
Y-axis (index 1) location F-curve of the `_base_` armature's action has its
value multiplied by the scene's scale factor, its frame number is
unchanged, and a Y-location keyframe with the new value sits at that frame
in the resulting curve. -/
theorem claim_hips_keyframes_scaled (interp : Interp) (s : Scene) (armature : Object)
    (ad : AnimData) (action : Action) (fc : FCurve)
    (hArm : findBaseArmature s = some armature)
    (hAd : armature.animation_data = some ad)
    (hAct : ad.action = some action)
    (hbh : hasBone armature.pose_bones "hips" = true)
    (hfc : findFC action.fcurves (locPath "hips") 1 = some fc)
    (hnd : (fc.keyframe_points.map Keyframe.frame).Nodup) :
    (execute interp s).ret = RetStatus.FINISHED ∧
    resultHipsFC (execute interp s) =
      some { fc with keyframe_points := fc.keyframe_points.map (scaleKF s.scale_factor) } ∧
    (∀ k ∈ fc.keyframe_points,
      ({ frame := k.frame, value := k.value * s.scale_factor } : Keyframe) ∈
        fc.keyframe_points.map (scaleKF s.scale_factor)) := by
  have hfc1 : findFC (startState interp s armature action).act.fcurves (locPath "hips") 1 =
      some fc := hfc
  obtain ⟨r1, r2, r3, r4⟩ := rootPass_untouched interp
    (rootDelta interp s armature action) (startState interp s armature action)
  have hfc2 : findFC (rootPass interp (rootDelta interp s armature action)
      (startState interp s armature action)).act.fcurves (locPath "hips") 1 = some fc :=
    (r1 (locPath "hips") 1 (Or.inl (Ne.symm locPath_root_ne_hips))).trans hfc1
  have hb2 : hasBone (rootPass interp (rootDelta interp s armature action)
      (startState interp s armature action)).bones "hips" = true := by
    rw [hasBone_congr "hips" r4, hasBone_congr "hips" (startState_names interp s armature action)]
    exact hbh
  obtain ⟨hmain, htr⟩ := hipsPass_main hfc2 hnd hb2
  refine ⟨?_, ?_, ?_⟩
  · rw [execute_some hArm hAd hAct, runMain_eq]
  · rw [resultHipsFC, resultAction_eq hArm hAd hAct]
    exact hmain
  · intro k hk
    exact List.mem_map.mpr ⟨k, hk, rfl⟩

/-- C2.  On a successful run, every Root Y keyframe at an integer frame of
the action's range is increased by the constant delta `scale_factor +
scale_factor * (-(hips first-frame Y))` and re-keyed at its frame; Root Y
keyframes away from the integer frames of the range are left unmodified. -/
theorem claim_root_keyframes_shifted (interp : Interp) (s : Scene) (armature : Object)
    (ad : AnimData) (action : Action) (fc : FCurve)
    (hArm : findBaseArmature s = some armature)
    (hAd : armature.animation_data = some ad)
    (hAct : ad.action = some action)
    (hbr : hasBone armature.pose_bones "Root" = true)
    (hfc : findFC action.fcurves (locPath "Root") 1 = some fc)
    (hnd : (fc.keyframe_points.map Keyframe.frame).Nodup) :
    resultRootFC (execute interp s) =
      some { fc with keyframe_points := fc.keyframe_points.map (bumpMany (frameList (pyInt action.frame_range.1) (pyInt action.frame_range.2)) (s.scale_factor + hipsOffsetOf interp armature action * s.scale_factor)) } ∧
    (∀ (f : ℤ) (k : Keyframe), pyInt action.frame_range.1 ≤ f →
      f ≤ pyInt action.frame_range.2 → k ∈ fc.keyframe_points → k.frame = (f : ℚ) →
      ({ frame := k.frame, value := k.value + (s.scale_factor + hipsOffsetOf interp armature action * s.scale_factor) } : Keyframe) ∈
        fc.keyframe_points.map (bumpMany (frameList (pyInt action.frame_range.1) (pyInt action.frame_range.2)) (s.scale_factor + hipsOffsetOf interp armature action * s.scale_factor))) ∧
    (∀ k ∈ fc.keyframe_points,
      (∀ f : ℤ, pyInt action.frame_range.1 ≤ f → f ≤ pyInt action.frame_range.2 →
        k.frame ≠ (f : ℚ)) →
      k ∈ fc.keyframe_points.map (bumpMany (frameList (pyInt action.frame_range.1) (pyInt action.frame_range.2)) (s.scale_factor + hipsOffsetOf interp armature action * s.scale_factor))) := by
  have hfc1 : findFC (startState interp s armature action).act.fcurves (locPath "Root") 1 =
      some fc := hfc
  have hb1 : hasBone (startState interp s armature action).bones "Root" = true := by
    rw [hasBone_congr "Root" (startState_names interp s armature action)]
    exact hbr
  have hR := @rootPass_main interp (rootDelta interp s armature action) (startState interp s armature action) fc hfc1 hnd hb1
  obtain ⟨u1, u2, u3, u4⟩ := hipsPass_untouched interp s.scale_factor
    (rootPass interp (rootDelta interp s armature action) (startState interp s armature action))
  have hfin : findFC (finalState interp s armature action).act.fcurves (locPath "Root") 1 =
      some { fc with keyframe_points := fc.keyframe_points.map (bumpMany (frameList (pyInt action.frame_range.1) (pyInt action.frame_range.2)) (rootDelta interp s armature action)) } :=
    (u1 (locPath "Root") 1 (Or.inl locPath_root_ne_hips)).trans hR
  refine ⟨?_, ?_, ?_⟩
  · rw [resultRootFC, resultAction_eq hArm hAd hAct]
    exact hfin
  · intro f k hf1 hf2 hk hkf
    refine List.mem_map.mpr ⟨k, hk, ?_⟩
    rw [bumpMany, if_pos]
    refine List.any_eq_true.mpr ⟨f, mem_frameList.mpr ⟨hf1, hf2⟩, ?_⟩
    simpa using hkf.symm
  · intro k hk hnone
    refine List.mem_map.mpr ⟨k, hk, ?_⟩
    have hfalse : ¬ ((frameList (pyInt action.frame_range.1)
        (pyInt action.frame_range.2)).any fun x => decide ((x : ℚ) = k.frame)) = true := by
      intro hcontra
      obtain ⟨f, hfmem, hfd⟩ := List.any_eq_true.mp hcontra
      obtain ⟨hf1, hf2⟩ := mem_frameList.mp hfmem
      exact hnone f hf1 hf2 (of_decide_eq_true hfd).symm
    rw [bumpMany, if_neg hfalse]

/-- C3.  The run's single offset is computed from the original hips data
before any keyframe is rewritten: the reported scaled offset is the scale
factor times the negated hips first-frame Y value, read from the hips Y
F-curve's keyframe at the first frame when one exists, and from the
evaluated pose when no hips Y F-curve exists. -/
theorem claim_offset_before_rewrite (interp : Interp) (s : Scene) (armature : Object)
    (ad : AnimData) (action : Action)
    (hArm : findBaseArmature s = some armature)
    (hAd : armature.animation_data = some ad)
    (hAct : ad.action = some action) :
    (execute interp s).reports =
      [Report.info s.scale_factor (hipsOffsetOf interp armature action * s.scale_factor)] ∧
    (∀ (fc : FCurve) (k : Keyframe), hasBone armature.pose_bones "hips" = true →
      findFC action.fcurves (locPath "hips") 1 = some fc →
      fc.keyframe_points.find?
        (fun kf => decide (kf.frame = ((pyInt action.frame_range.1 : ℤ) : ℚ))) = some k →
      hipsOffsetOf interp armature action = -k.value) ∧
    (∀ hb0 : PoseBone, findBone armature.pose_bones "hips" = some hb0 →
      findFC action.fcurves (locPath "hips") 1 = none →
      hipsOffsetOf interp armature action =
        -(frameSetBone interp action (pyInt action.frame_range.1) hb0).location.y) := by
  refine ⟨?_, ?_, ?_⟩
  · rw [execute_some hArm hAd hAct, runMain_eq]
  · intro fc k hbh hfc hfind
    exact hipsOffset_keyed hbh hfc hfind
  · intro hb0 hfb hnone
    rw [hipsOffsetOf]
    rw [computeHipsYOffset,
      findBone_map (f := frameSetBone interp action (pyInt action.frame_range.1)) (fun b => rfl),
      hfb, hnone]
    simp only [Option.map_some']

/-- C4.  The operation always ends by reporting: with no `_base_` armature
it reports the armature error and cancels; with no animation data or
action it reports the data error and cancels; otherwise it finishes and
reports the scale factor together with the scaled hips offset. -/
theorem claim_reports_and_status (interp : Interp) (s : Scene) :
    (findBaseArmature s = none →
      (execute interp s).ret = RetStatus.CANCELLED ∧
      (execute interp s).reports = [Report.error "No armature named '_base_' found."]) ∧
    (∀ armature : Object, findBaseArmature s = some armature →
      armature.animation_data.bind (fun ad => ad.action) = none →
      (execute interp s).ret = RetStatus.CANCELLED ∧
      (execute interp s).reports = [Report.error "No animation data found."]) ∧
    (∀ (armature : Object) (ad : AnimData) (action : Action),
      findBaseArmature s = some armature →
      armature.animation_data = some ad → ad.action = some action →
      (execute interp s).ret = RetStatus.FINISHED ∧
      (execute interp s).reports =
        [Report.info s.scale_factor (hipsOffsetOf interp armature action * s.scale_factor)]) := by
  refine ⟨?_, ?_, ?_⟩
  · intro h
    rw [execute_none h]
    exact ⟨rfl, rfl⟩
  · intro armature h h2
    cases had : armature.animation_data with
    | none =>
      rw [execute_noad h had]
      exact ⟨rfl, rfl⟩
    | some ad =>
      rw [had, Option.some_bind] at h2
      rw [execute_noact h had h2]
      exact ⟨rfl, rfl⟩
  · intro armature ad action h h2 h3
    rw [execute_some h h2 h3, runMain_eq]
    exact ⟨rfl, rfl⟩

/-- C5.  A successful run rewrites exactly the Root and hips Y-location
channels: every other F-curve slot of the action keeps its value, and the
two rewritten channels keep all their keyframe frame numbers. -/
theorem claim_only_two_channels (interp : Interp) (s : Scene) (armature : Object)
    (ad : AnimData) (action : Action) (fcR fcH : FCurve)
    (hArm : findBaseArmature s = some armature)
    (hAd : armature.animation_data = some ad)
    (hAct : ad.action = some action)
    (hbr : hasBone armature.pose_bones "Root" = true)
    (hbh : hasBone armature.pose_bones "hips" = true)
    (hfcR : findFC action.fcurves (locPath "Root") 1 = some fcR)
    (hfcH : findFC action.fcurves (locPath "hips") 1 = some fcH)
    (hndR : (fcR.keyframe_points.map Keyframe.frame).Nodup)
    (hndH : (fcH.keyframe_points.map Keyframe.frame).Nodup) :
    (∀ (j : Nat) (fc' : FCurve), action.fcurves[j]? = some fc' →
      fcMatch fc' (locPath "Root") 1 = false → fcMatch fc' (locPath "hips") 1 = false →
      (sceneAction (execute interp s).scene).bind (fun a => a.fcurves[j]?) = some fc') ∧
    (resultRootFC (execute interp s)).map
        (fun fc0 => fc0.keyframe_points.map Keyframe.frame) =
      some (fcR.keyframe_points.map Keyframe.frame) ∧
    (resultHipsFC (execute interp s)).map
        (fun fc0 => fc0.keyframe_points.map Keyframe.frame) =
      some (fcH.keyframe_points.map Keyframe.frame) := by
  refine ⟨?_, ?_, ?_⟩
  · intro j fc' hj hmR hmH
    obtain ⟨r1, r2, r3, r4⟩ := rootPass_untouched interp
      (rootDelta interp s armature action) (startState interp s armature action)
    obtain ⟨u1, u2, u3, u4⟩ := hipsPass_untouched interp s.scale_factor
      (rootPass interp (rootDelta interp s armature action) (startState interp s armature action))
    have hj1 : (startState interp s armature action).act.fcurves[j]? = some fc' := hj
    rw [resultAction_eq hArm hAd hAct]
    show (finalState interp s armature action).act.fcurves[j]? = some fc'
    exact u2 j fc' (r2 j fc' hj1 hmR) hmH
  · have hfc1 : findFC (startState interp s armature action).act.fcurves (locPath "Root") 1 =
        some fcR := hfcR
    have hb1 : hasBone (startState interp s armature action).bones "Root" = true := by
      rw [hasBone_congr "Root" (startState_names interp s armature action)]
      exact hbr
    have hR := @rootPass_main interp (rootDelta interp s armature action)
      (startState interp s armature action) fcR hfc1 hndR hb1
    obtain ⟨u1, u2, u3, u4⟩ := hipsPass_untouched interp s.scale_factor
      (rootPass interp (rootDelta interp s armature action) (startState interp s armature action))
    have hfin : findFC (finalState interp s armature action).act.fcurves (locPath "Root") 1 = _ :=
      (u1 (locPath "Root") 1 (Or.inl locPath_root_ne_hips)).trans hR
    rw [resultRootFC, resultAction_eq hArm hAd hAct, Option.some_bind, hfin,
      Option.map_some']
    exact congrArg some (frames_map (fun k => bumpMany_frame _ _ k))
  · have hfc1 : findFC (startState interp s armature action).act.fcurves (locPath "hips") 1 =
        some fcH := hfcH
    obtain ⟨r1, r2, r3, r4⟩ := rootPass_untouched interp
      (rootDelta interp s armature action) (startState interp s armature action)
    have hfc2 : findFC (rootPass interp (rootDelta interp s armature action)
        (startState interp s armature action)).act.fcurves (locPath "hips") 1 = some fcH :=
      (r1 (locPath "hips") 1 (Or.inl (Ne.symm locPath_root_ne_hips))).trans hfc1
    have hb2 : hasBone (rootPass interp (rootDelta interp s armature action)
        (startState interp s armature action)).bones "hips" = true := by
      rw [hasBone_congr "hips" r4,
        hasBone_congr "hips" (startState_names interp s armature action)]
      exact hbh
    obtain ⟨hmain, htr⟩ := hipsPass_main hfc2 hndH hb2
    have hmain' : findFC (finalState interp s armature action).act.fcurves (locPath "hips") 1 = _ :=
      hmain
    rw [resultHipsFC, resultAction_eq hArm hAd hAct, Option.some_bind, hmain',
      Option.map_some']
    exact congrArg some (frames_map (fun k => scaleKF_frame _ k))

/-- C6 fails on the code: at scale factor 1 with hips first-frame Y equal
to 0, the Root keyframe still moves from 5 to 6, because the Root delta is
`1 + 1 * (-0) = 1`, not 0. -/
theorem claim_scale_one_counterexample :
    sceneScaleOne.scale_factor = 1 ∧
    findFC scaleOneAction.fcurves (locPath "Root") 1 = some oneRootFC ∧
    oneRootFC.keyframe_points = [{ frame := 1, value := 5 }] ∧
    resultRootFC (execute constInterp sceneScaleOne) =
      some { data_path := locPath "Root", array_index := 1,
             keyframe_points := [{ frame := 1, value := 6 }] } ∧
    ({ frame := 1, value := 6 } : Keyframe) ≠ { frame := 1, value := 5 } :=
  ⟨rfl, by with_unfolding_all rfl, rfl, by with_unfolding_all rfl,
    by intro h; exact absurd (congrArg Keyframe.value h) (by norm_num)⟩

/-- C6 amended.  For scale factor 1, the hips Y keyframes are always
unchanged, and the Root Y keyframes are unchanged exactly when the hips
first-frame Y value is 1 (here assumed), since the per-frame Root delta is
`1 - hips_first_y`. -/
theorem claim_scale_one_identity_amended (interp : Interp) (s : Scene) (armature : Object)
    (ad : AnimData) (action : Action) (fcR fcH : FCurve) (k : Keyframe)
    (hArm : findBaseArmature s = some armature)
    (hAd : armature.animation_data = some ad)
    (hAct : ad.action = some action)
    (hsf : s.scale_factor = 1)
    (hbr : hasBone armature.pose_bones "Root" = true)
    (hbh : hasBone armature.pose_bones "hips" = true)
    (hfcR : findFC action.fcurves (locPath "Root") 1 = some fcR)
    (hfcH : findFC action.fcurves (locPath "hips") 1 = some fcH)
    (hndR : (fcR.keyframe_points.map Keyframe.frame).Nodup)
    (hndH : (fcH.keyframe_points.map Keyframe.frame).Nodup)
    (hfind : fcH.keyframe_points.find?
      (fun kf => decide (kf.frame = ((pyInt action.frame_range.1 : ℤ) : ℚ))) = some k)
    (hkv : k.value = 1) :
    resultHipsFC (execute interp s) = some fcH ∧
    resultRootFC (execute interp s) = some fcR := by
  have hdz : rootDelta interp s armature action = 0 := by
    rw [rootDelta, hipsOffset_keyed hbh hfcH hfind, hkv, hsf]
    norm_num
  constructor
  · have hfc1 : findFC (startState interp s armature action).act.fcurves (locPath "hips") 1 =
        some fcH := hfcH
    obtain ⟨r1, r2, r3, r4⟩ := rootPass_untouched interp
      (rootDelta interp s armature action) (startState interp s armature action)
    have hfc2 : findFC (rootPass interp (rootDelta interp s armature action)
        (startState interp s armature action)).act.fcurves (locPath "hips") 1 = some fcH :=
      (r1 (locPath "hips") 1 (Or.inl (Ne.symm locPath_root_ne_hips))).trans hfc1
    have hb2 : hasBone (rootPass interp (rootDelta interp s armature action)
        (startState interp s armature action)).bones "hips" = true := by
      rw [hasBone_congr "hips" r4,
        hasBone_congr "hips" (startState_names interp s armature action)]
      exact hbh
    obtain ⟨hmain, htr⟩ := hipsPass_main hfc2 hndH hb2
    rw [resultHipsFC, resultAction_eq hArm hAd hAct]
    show findFC (hipsPass interp s.scale_factor (rootPass interp
      (rootDelta interp s armature action)
      (startState interp s armature action))).act.fcurves (locPath "hips") 1 = some fcH
    rw [hmain, hsf]
    refine congrArg some ?_
    have hid : fcH.keyframe_points.map (scaleKF 1) = fcH.keyframe_points := by
      calc fcH.keyframe_points.map (scaleKF 1)
          = fcH.keyframe_points.map id := List.map_congr_left (fun kk _ => scaleKF_one kk)
        _ = fcH.keyframe_points := List.map_id _
    rw [hid]
  · have hfc1 : findFC (startState interp s armature action).act.fcurves (locPath "Root") 1 =
        some fcR := hfcR
    have hb1 : hasBone (startState interp s armature action).bones "Root" = true := by
      rw [hasBone_congr "Root" (startState_names interp s armature action)]
      exact hbr
    have hR := @rootPass_main interp (rootDelta interp s armature action)
      (startState interp s armature action) fcR hfc1 hndR hb1
    obtain ⟨u1, u2, u3, u4⟩ := hipsPass_untouched interp s.scale_factor
      (rootPass interp (rootDelta interp s armature action) (startState interp s armature action))
    have hfin := (u1 (locPath "Root") 1 (Or.inl locPath_root_ne_hips)).trans hR
    rw [resultRootFC, resultAction_eq hArm hAd hAct]
    show findFC (hipsPass interp s.scale_factor (rootPass interp
      (rootDelta interp s armature action)
      (startState interp s armature action))).act.fcurves (locPath "Root") 1 = some fcR
    rw [hfin, hdz]
    refine congrArg some ?_
    have hid : fcR.keyframe_points.map (bumpMany (frameList (pyInt (startState interp s armature action).act.frame_range.1) (pyInt (startState interp s armature action).act.frame_range.2)) 0) = fcR.keyframe_points := by
      calc fcR.keyframe_points.map (bumpMany _ 0)
          = fcR.keyframe_points.map id := List.map_congr_left (fun kk _ => bumpMany_zero _ kk)
        _ = fcR.keyframe_points := List.map_id _
    rw [hid]

/-- C7 fails on the code: with no Root pose bone the run still finishes,
but the timeline is never scrubbed to frame 2 although the action range is
1 to 2 — the per-frame scrub loop only runs when the Root bone exists. -/
theorem claim_scrub_once_counterexample :
    (execute constInterp sceneNoRoot).ret = RetStatus.FINISHED ∧
    pyInt noRootAction.frame_range.1 = 1 ∧
    pyInt noRootAction.frame_range.2 = 2 ∧
    (execute constInterp sceneNoRoot).trace = [1, 1] ∧
    (2 : ℤ) ∉ (execute constInterp sceneNoRoot).trace := by
  have htr : (execute constInterp sceneNoRoot).trace = [1, 1] := by
    with_unfolding_all rfl
  refine ⟨rfl, rfl, rfl, htr, ?_⟩
  rw [htr]
  decide

/-- C7 amended.  When the armature has a Root pose bone, a successful run
scrubs the timeline once to the first frame, then to each integer frame of
the action's range exactly once (the Root pass), then to the truncated
frame of each hips keyframe (the hips pass); and each keyframe on the two
rewritten channels receives its correction exactly once. -/
theorem claim_scrub_once_amended (interp : Interp) (s : Scene) (armature : Object)
    (ad : AnimData) (action : Action) (fcR fcH : FCurve)
    (hArm : findBaseArmature s = some armature)
    (hAd : armature.animation_data = some ad)
    (hAct : ad.action = some action)
    (hbr : hasBone armature.pose_bones "Root" = true)
    (hbh : hasBone armature.pose_bones "hips" = true)
    (hfcR : findFC action.fcurves (locPath "Root") 1 = some fcR)
    (hfcH : findFC action.fcurves (locPath "hips") 1 = some fcH)
    (hndR : (fcR.keyframe_points.map Keyframe.frame).Nodup)
    (hndH : (fcH.keyframe_points.map Keyframe.frame).Nodup) :
    (execute interp s).trace =
      pyInt action.frame_range.1 ::
        ((frameList (pyInt action.frame_range.1) (pyInt action.frame_range.2)) ++ fcH.keyframe_points.map (fun k => pyInt k.frame)) ∧
    (frameList (pyInt action.frame_range.1) (pyInt action.frame_range.2)).Nodup ∧
    (∀ f : ℤ, f ∈ (frameList (pyInt action.frame_range.1) (pyInt action.frame_range.2)) ↔
      (pyInt action.frame_range.1 ≤ f ∧ f ≤ pyInt action.frame_range.2)) ∧
    resultRootFC (execute interp s) =
      some { fcR with keyframe_points := fcR.keyframe_points.map (bumpMany (frameList (pyInt action.frame_range.1) (pyInt action.frame_range.2)) (rootDelta interp s armature action)) } ∧
    resultHipsFC (execute interp s) =
      some { fcH with keyframe_points := fcH.keyframe_points.map (scaleKF s.scale_factor) } := by
  have hfcR1 : findFC (startState interp s armature action).act.fcurves (locPath "Root") 1 =
      some fcR := hfcR
  have hfcH1 : findFC (startState interp s armature action).act.fcurves (locPath "hips") 1 =
      some fcH := hfcH
  have hb1 : hasBone (startState interp s armature action).bones "Root" = true := by
    rw [hasBone_congr "Root" (startState_names interp s armature action)]
    exact hbr
  obtain ⟨r1, r2, r3, r4⟩ := rootPass_untouched interp
    (rootDelta interp s armature action) (startState interp s armature action)
  have hfcH2 : findFC (rootPass interp (rootDelta interp s armature action)
      (startState interp s armature action)).act.fcurves (locPath "hips") 1 = some fcH :=
    (r1 (locPath "hips") 1 (Or.inl (Ne.symm locPath_root_ne_hips))).trans hfcH1
  have hb2 : hasBone (rootPass interp (rootDelta interp s armature action)
      (startState interp s armature action)).bones "hips" = true := by
    rw [hasBone_congr "hips" r4,
      hasBone_congr "hips" (startState_names interp s armature action)]
    exact hbh
  obtain ⟨hmain, htr⟩ := hipsPass_main hfcH2 hndH hb2
  have hR := @rootPass_main interp (rootDelta interp s armature action)
    (startState interp s armature action) fcR hfcR1 hndR hb1
  obtain ⟨u1, u2, u3, u4⟩ := hipsPass_untouched interp s.scale_factor
    (rootPass interp (rootDelta interp s armature action) (startState interp s armature action))
  refine ⟨?_, frameList_nodup _ _, fun f => mem_frameList, ?_, ?_⟩
  · rw [execute_some hArm hAd hAct, runMain_eq]
    show (hipsPass interp s.scale_factor (rootPass interp
      (rootDelta interp s armature action)
      (startState interp s armature action))).trace = _
    rw [htr, rootPass_trace hb1]
    show ([pyInt action.frame_range.1] ++ _) ++ _ = _
    rw [List.append_assoc]
    rfl
  · rw [resultRootFC, resultAction_eq hArm hAd hAct]
    exact (u1 (locPath "Root") 1 (Or.inl locPath_root_ne_hips)).trans hR
  · rw [resultHipsFC, resultAction_eq hArm hAd hAct]
    exact hmain

/-- C8.  A cancelled run modifies nothing: the scene it returns is exactly
the input scene and the timeline was never scrubbed. -/
theorem claim_cancel_modifies_nothing (interp : Interp) (s : Scene)
    (h : (execute interp s).ret = RetStatus.CANCELLED) :
    (execute interp s).scene = s ∧ (execute interp s).trace = [] := by
  cases harm : findBaseArmature s with
  | none =>
    rw [execute_none harm]
    exact ⟨rfl, rfl⟩
  | some armature =>
    cases had : armature.animation_data with
    | none =>
      rw [execute_noad harm had]
      exact ⟨rfl, rfl⟩
    | some ad =>
      cases hact : ad.action with
      | none =>
        rw [execute_noact harm had hact]
        exact ⟨rfl, rfl⟩
      | some action =>
        rw [execute_some harm had hact, runMain_eq] at h
        exact (RetStatus.noConfusion h)

/-- C9.  The registered scale-factor property is bounded to [0.1, 100]
with default 1, so every in-bounds scale factor is strictly positive, and
multiplying a hips keyframe by it never zeroes the value or flips its
sign. -/
theorem claim_scale_factor_bounds :
    scale_factor_prop.default = 1 ∧
    scale_factor_prop.min = 1/10 ∧
    scale_factor_prop.max = 100 ∧
    (∀ v : ℚ, scale_factor_prop.min ≤ v → v ≤ scale_factor_prop.max → 0 < v) ∧
    (∀ v : ℚ, scale_factor_prop.min ≤ v → v ≤ scale_factor_prop.max → ∀ k : Keyframe,
      ((scaleKF v k).value = 0 ↔ k.value = 0) ∧
      (0 < k.value → 0 < (scaleKF v k).value) ∧
      (k.value < 0 → (scaleKF v k).value < 0)) := by
  refine ⟨rfl, rfl, rfl, ?_, ?_⟩
  · intro v h1 _
    have h0 : (1/10 : ℚ) ≤ v := h1
    linarith
  · intro v h1 _ k
    have hv : (0 : ℚ) < v := by
      have h0 : (1/10 : ℚ) ≤ v := h1
      linarith
    refine ⟨?_, ?_, ?_⟩
    · show k.value * v = 0 ↔ k.value = 0
      constructor
      · intro h
        rcases mul_eq_zero.mp h with h | h
        · exact h
        · exact absurd h (ne_of_gt hv)
      · intro h
        rw [h, zero_mul]
    · intro h
      exact mul_pos h hv
    · intro h
      exact mul_neg_of_neg_of_pos h hv

/-- C10.  When the hips Y F-curve exists but has no keyframe at the first
frame, the computed hips offset is 0 (so the run reports offset 0), and
with the curve present the offset never consults the evaluated pose. -/
theorem claim_no_first_keyframe_offset_zero (interp : Interp) (s : Scene)
    (armature : Object) (ad : AnimData) (action : Action) (fc : FCurve)
    (hArm : findBaseArmature s = some armature)
    (hAd : armature.animation_data = some ad)
    (hAct : ad.action = some action)
    (hbh : hasBone armature.pose_bones "hips" = true)
    (hfc : findFC action.fcurves (locPath "hips") 1 = some fc)
    (hno : ∀ k ∈ fc.keyframe_points, ¬ k.frame = ((pyInt action.frame_range.1 : ℤ) : ℚ)) :
    hipsOffsetOf interp armature action = 0 ∧
    (execute interp s).reports = [Report.info s.scale_factor 0] ∧
    (∀ bones1 bones2 : List PoseBone,
      hasBone bones1 "hips" = true → hasBone bones2 "hips" = true →
      computeHipsYOffset action bones1 (pyInt action.frame_range.1) =
        computeHipsYOffset action bones2 (pyInt action.frame_range.1)) := by
  have h0 : hipsOffsetOf interp armature action = 0 := hipsOffset_nokey hbh hfc hno
  have key : ∀ bones : List PoseBone, hasBone bones "hips" = true →
      computeHipsYOffset action bones (pyInt action.frame_range.1) = 0 := by
    intro bones hb
    obtain ⟨bb, hbb⟩ := Option.isSome_iff_exists.mp hb
    have hfind : fc.keyframe_points.find?
        (fun kf => decide (kf.frame = ((pyInt action.frame_range.1 : ℤ) : ℚ))) = none := by
      rw [List.find?_eq_none]
      intro k hk
      simpa using hno k hk
    rw [computeHipsYOffset, hbb, hfc]
    simp only [hfind]
  refine ⟨h0, ?_, ?_⟩
  · rw [execute_some hArm hAd hAct, runMain_eq, h0, zero_mul]
  · intro bones1 bones2 h1 h2
    rw [key bones1 h1, key bones2 h2]

/-- Witness for C1 at the sample scene: scale factor 2 doubles both hips
keyframe values. -/
theorem claim_hips_keyframes_scaled_witness :
    (execute constInterp demoScene).ret = RetStatus.FINISHED ∧
    resultHipsFC (execute constInterp demoScene) =
      some { demoHipsFC with
             keyframe_points := demoHipsFC.keyframe_points.map (scaleKF demoScene.scale_factor) } := by
  have h := claim_hips_keyframes_scaled constInterp demoScene demoArm
    { action := some demoAction } demoAction demoHipsFC (by decide) rfl rfl
    (by decide) (by decide) (by decide)
  exact ⟨h.1, h.2.1⟩

/-- Witness for C2 at the sample scene: the Root keyframes shift by the
computed delta. -/
theorem claim_root_keyframes_shifted_witness :
    resultRootFC (execute constInterp demoScene) =
      some { demoRootFC with keyframe_points := demoRootFC.keyframe_points.map (bumpMany (frameList (pyInt demoAction.frame_range.1) (pyInt demoAction.frame_range.2)) (demoScene.scale_factor + hipsOffsetOf constInterp demoArm demoAction * demoScene.scale_factor)) } :=
  (claim_root_keyframes_shifted constInterp demoScene demoArm
    { action := some demoAction } demoAction demoRootFC (by decide) rfl rfl
    (by decide) (by decide) (by decide)).1

/-- Witness for C3 at the sample scene: the reported offset is the scaled
negated hips first-frame Y value. -/
theorem claim_offset_before_rewrite_witness :
    (execute constInterp demoScene).reports =
      [Report.info demoScene.scale_factor
        (hipsOffsetOf constInterp demoArm demoAction * demoScene.scale_factor)] :=
  (claim_offset_before_rewrite constInterp demoScene demoArm
    { action := some demoAction } demoAction (by decide) rfl rfl).1

/-- Witness for C4 at the sample scene: the run finishes and reports the
scale factor with the scaled offset. -/
theorem claim_reports_and_status_witness :
    (execute constInterp demoScene).ret = RetStatus.FINISHED ∧
    (execute constInterp demoScene).reports =
      [Report.info demoScene.scale_factor
        (hipsOffsetOf constInterp demoArm demoAction * demoScene.scale_factor)] :=
  (claim_reports_and_status constInterp demoScene).2.2 demoArm
    { action := some demoAction } demoAction (by decide) rfl rfl

/-- Witness for C5 at the sample scene: the non-target hips X channel
survives and the two target channels keep their frames. -/
theorem claim_only_two_channels_witness :
    (sceneAction (execute constInterp demoScene).scene).bind (fun a => a.fcurves[2]?) =
      some demoHipsXFC ∧
    (resultRootFC (execute constInterp demoScene)).map
        (fun fc0 => fc0.keyframe_points.map Keyframe.frame) =
      some (demoRootFC.keyframe_points.map Keyframe.frame) ∧
    (resultHipsFC (execute constInterp demoScene)).map
        (fun fc0 => fc0.keyframe_points.map Keyframe.frame) =
      some (demoHipsFC.keyframe_points.map Keyframe.frame) := by
  have h := claim_only_two_channels constInterp demoScene demoArm
    { action := some demoAction } demoAction demoRootFC demoHipsFC (by decide) rfl rfl
    (by decide) (by decide) (by decide) (by decide) (by decide) (by decide)
  exact ⟨h.1 2 demoHipsXFC (by decide) (by decide) (by decide), h.2.1, h.2.2⟩

/-- Witness for the amended C6 at the identity scene: with scale factor 1
and hips first-frame Y equal to 1, both channels are unchanged. -/
theorem claim_scale_one_identity_amended_witness :
    resultHipsFC (execute constInterp sceneIdent) = some unitHipsFC ∧
    resultRootFC (execute constInterp sceneIdent) = some oneRootFC :=
  claim_scale_one_identity_amended constInterp sceneIdent identArm
    { action := some identAction } identAction oneRootFC unitHipsFC
    { frame := 1, value := 1 } (by decide) rfl rfl rfl (by decide) (by decide)
    (by decide) (by decide) (by decide) (by decide) (by decide) rfl

/-- Witness for the amended C7 at the sample scene: the scrub trace is the
first frame, the whole range once each, then each hips keyframe's frame. -/
theorem claim_scrub_once_amended_witness :
    (execute constInterp demoScene).trace =
      pyInt demoAction.frame_range.1 ::
        (frameList (pyInt demoAction.frame_range.1) (pyInt demoAction.frame_range.2) ++
          demoHipsFC.keyframe_points.map (fun k => pyInt k.frame)) := by
  have h := claim_scrub_once_amended constInterp demoScene demoArm
    { action := some demoAction } demoAction demoRootFC demoHipsFC (by decide) rfl rfl
    (by decide) (by decide) (by decide) (by decide) (by decide) (by decide)
  exact h.1

/-- Witness for C8 at the empty scene: the cancelled run returns the scene
untouched. -/
theorem claim_cancel_modifies_nothing_witness :
    (execute constInterp sceneEmpty).scene = sceneEmpty ∧
    (execute constInterp sceneEmpty).trace = [] :=
  claim_cancel_modifies_nothing constInterp sceneEmpty (by decide)

/-- Witness for C9: within the registered bounds (here at scale factor 1),
scaling zeroes a keyframe value only if it was zero. -/
theorem claim_scale_factor_bounds_witness :
    (scaleKF 1 { frame := 0, value := 2 }).value = 0 ↔
      ({ frame := 0, value := 2 } : Keyframe).value = 0 :=
  ((claim_scale_factor_bounds).2.2.2.2 1 (by norm_num [scale_factor_prop])
    (by norm_num [scale_factor_prop]) { frame := 0, value := 2 }).1

/-- Witness for C10 at the late-keyframe scene: the hips curve exists but
has no keyframe at frame 1, so the offset is 0 and the report says so. -/
theorem claim_no_first_keyframe_offset_zero_witness :
    hipsOffsetOf constInterp lateArm lateAction = 0 ∧
    (execute constInterp sceneLate).reports =
      [Report.info sceneLate.scale_factor 0] := by
  have h := claim_no_first_keyframe_offset_zero constInterp sceneLate lateArm
    { action := some lateAction } lateAction lateHipsFC (by decide) rfl rfl
    (by decide) (by decide) (by decide)
  exact ⟨h.1, h.2.1⟩

end ScaleFix
